import Mathlib

/-!
Verification of the LLM-council deliberation pipeline.

This file gives a shallow embedding, in Lean 4, of the pure algorithmic core of
the pipeline: the free-text ranking parser, the aggregate-ranking computation,
the consensus check and debate loop, the complexity router (heuristic and
ML-initialised variants), and the semantic response cache.  Python strings are
modelled as `List Char`, Python floats as `ℚ` (all constants in the source are
exact decimals), wall-clock timestamps as `ℚ` hours, and the remote model
gateway — an external collaborator reached over the network — as an explicit
function argument.  Regular-expression scans from the source are translated
into explicit left-to-right scanners with the same non-overlapping leftmost
semantics.
-/

namespace Council

/-! ## Character classes (ASCII models of Python's `\s`, `\d`, `\w`) -/

/-- Whitespace characters recognised by Python's `\s` and `str.strip`
(ASCII fragment): space, tab, newline, carriage return, vertical tab, form
feed — written by code point. -/
def isPySpace (c : Char) : Bool :=
  decide (c.toNat = 32 ∨ c.toNat = 9 ∨ c.toNat = 10 ∨ c.toNat = 13 ∨
    c.toNat = 11 ∨ c.toNat = 12)

/-- Decimal digits, Python's `\d` (ASCII fragment). -/
def isPyDigit (c : Char) : Bool :=
  '0' ≤ c && c ≤ '9'

/-- Word characters, Python's `\w` (ASCII fragment): letters, digits, underscore. -/
def isPyWord (c : Char) : Bool :=
  ('a' ≤ c && c ≤ 'z') || ('A' ≤ c && c ≤ 'Z') || isPyDigit c || c = '_'

/-- Uppercase ASCII letter, the character class `[A-Z]`. -/
def isUpperAZ (c : Char) : Bool :=
  'A' ≤ c && c ≤ 'Z'

/-- Python `str.lower` on one character (ASCII fragment): code points 65–90
map to 97–122. -/
def lowerChar (c : Char) : Char :=
  if 65 ≤ c.toNat ∧ c.toNat ≤ 90 then Char.ofNat (c.toNat + 32) else c

/-- Python `str.lower`. -/
def pyLower (s : List Char) : List Char :=
  s.map lowerChar

/-- Python `str.strip()`: remove leading and trailing whitespace. -/
def pyStrip (s : List Char) : List Char :=
  ((s.dropWhile isPySpace).reverse.dropWhile isPySpace).reverse

/-! ## Substring search (Python `in`, `str.split`) -/

/-- Index of the first occurrence of `pat` in `s`, if any. -/
def findSub (pat : List Char) : List Char → Option Nat
  | [] => if pat.isPrefixOf ([] : List Char) then some 0 else none
  | c :: t =>
    if pat.isPrefixOf (c :: t) then some 0
    else (findSub pat t).map (· + 1)

/-- Python's substring test `pat in s`. -/
def containsSub (pat s : List Char) : Bool :=
  (findSub pat s).isSome

/-- Fuelled worker for Python `str.split(sep)` (all occurrences, left to right,
non-overlapping). -/
def pySplitGo (sep : List Char) : Nat → List Char → List (List Char)
  | 0, s => [s]
  | fuel + 1, s =>
    match findSub sep s with
    | none => [s]
    | some i => s.take i :: pySplitGo sep fuel (s.drop (i + sep.length))

/-- Python `str.split(sep)` for a non-empty separator.  The fuel
`s.length + 1` is enough because every cut removes at least one character. -/
def pySplit (sep s : List Char) : List (List Char) :=
  pySplitGo sep (s.length + 1) s

/-- Index of the last occurrence of `pat` in `s`, if any.  Used only to state
the specification's "last occurrence" reading of the parser. -/
def findLastSub (pat s : List Char) : Option Nat :=
  (((List.range (s.length + 1)).filter (fun i => pat.isPrefixOf (s.drop i))).getLast?)

/-! ## The ranking-label scanners

The source extracts labels with `re.findall(r'Response [A-Z]', …)` and
`re.findall(r'\d+\.\s*Response [A-Z]', …)`.  Both patterns are translated into
explicit scanners with the leftmost non-overlapping semantics of `findall`:
at each position the fixed-shape pattern either matches (match recorded, scan
resumes after it) or the scan advances one character.  Greedy `\d+` / `\s*`
are maximal munches, which is exact here because a digit cannot be `.` and a
whitespace character cannot be `R`. -/

/-- The literal `"Response "` (label prefix, including the trailing space). -/
def RESPONSE_SP : List Char := "Response ".data

/-- Match `Response [A-Z]` at the head of `s`; return the matched ten
characters and the rest. -/
def matchResp (s : List Char) : Option (List Char × List Char) :=
  if RESPONSE_SP.isPrefixOf s then
    match s.drop 9 with
    | c :: rest => if isUpperAZ c then some (RESPONSE_SP ++ [c], rest) else none
    | [] => none
  else none

/-- Fuelled `findall` scanner for `Response [A-Z]`. -/
def findallRespGo : Nat → List Char → List (List Char)
  | 0, _ => []
  | _ + 1, [] => []
  | fuel + 1, c :: t =>
    match matchResp (c :: t) with
    | some (m, rest) => m :: findallRespGo fuel rest
    | none => findallRespGo fuel t

/-- `re.findall(r'Response [A-Z]', s)`. -/
def findallResp (s : List Char) : List (List Char) :=
  findallRespGo s.length s

/-- `re.search(r'Response [A-Z]', s)`: the first label occurring in `s`. -/
def searchRespGo : Nat → List Char → Option (List Char)
  | 0, _ => none
  | _ + 1, [] => none
  | fuel + 1, c :: t =>
    match matchResp (c :: t) with
    | some (m, _) => some m
    | none => searchRespGo fuel t

/-- First `Response [A-Z]` occurrence in `s`, if any. -/
def searchResp (s : List Char) : Option (List Char) :=
  searchRespGo s.length s

/-- Match `\d+\.\s*Response [A-Z]` at the head of `s`; return the matched text
and the rest. -/
def matchNumbered (s : List Char) : Option (List Char × List Char) :=
  let digits := s.takeWhile isPyDigit
  if digits.isEmpty then none
  else
    match s.drop digits.length with
    | '.' :: rest1 =>
      let sp := rest1.takeWhile isPySpace
      match matchResp (rest1.drop sp.length) with
      | some (lab, rest3) => some (digits ++ '.' :: (sp ++ lab), rest3)
      | none => none
    | _ => none

/-- Fuelled `findall` scanner for `\d+\.\s*Response [A-Z]`. -/
def findallNumberedGo : Nat → List Char → List (List Char)
  | 0, _ => []
  | _ + 1, [] => []
  | fuel + 1, c :: t =>
    match matchNumbered (c :: t) with
    | some (m, rest) => m :: findallNumberedGo fuel rest
    | none => findallNumberedGo fuel t

/-- `re.findall(r'\d+\.\s*Response [A-Z]', s)`. -/
def findallNumbered (s : List Char) : List (List Char) :=
  findallNumberedGo s.length s

/-! ## `parse_ranking_from_text` (council.py, lines 687–716) -/

/-- The header literal `"FINAL RANKING:"`. -/
def FINAL_RANKING : List Char := "FINAL RANKING:".data

/-- Embedding of `parse_ranking_from_text`.  The source checks
`"FINAL RANKING:" in ranking_text`, splits on every occurrence of the header,
takes `parts[1]`, first tries the numbered pattern inside that section
(extracting just the label of each match with `re.search`), then falls back to
all label occurrences in the section; if the header is absent (or the split
yields fewer than two parts) it scans the whole text. -/
def parse_ranking_from_text (t : List Char) : List (List Char) :=
  if containsSub FINAL_RANKING t then
    let parts := pySplit FINAL_RANKING t
    if 2 ≤ parts.length then
      let ranking_section := parts.getD 1 []
      let numbered := findallNumbered ranking_section
      if numbered.isEmpty then findallResp ranking_section
      else numbered.map (fun m => (searchResp m).getD [])
    else findallResp t
  else findallResp t

/-- The section of `t` the parser works on according to the amended claim:
everything after the first occurrence of the header, truncated at the next
occurrence of the header if there is one. -/
def sectionAfterFirstHeader (t : List Char) (i : Nat) : List Char :=
  let rem := t.drop (i + FINAL_RANKING.length)
  match findSub FINAL_RANKING rem with
  | none => rem
  | some j => rem.take j

/-- The amended parsing algorithm, written out from the amended claim: locate
the FIRST occurrence of "FINAL RANKING:"; within the text after it (up to the
next occurrence of the header), first try the strict numbered pattern, else
fall back to all label occurrences there; if the header is absent scan the
whole text. -/
def amendedRankingParse (t : List Char) : List (List Char) :=
  match findSub FINAL_RANKING t with
  | none => findallResp t
  | some i =>
    let sec := sectionAfterFirstHeader t i
    let strict := (findallNumbered sec).map (fun m => (searchResp m).getD [])
    if strict.isEmpty then findallResp sec else strict

/-- The claimed parsing algorithm, written out from claim C1 verbatim: locate
the LAST occurrence of "FINAL RANKING:" and parse the remainder after it. -/
def claimedLastHeaderParse (t : List Char) : List (List Char) :=
  match findLastSub FINAL_RANKING t with
  | none => findallResp t
  | some i =>
    let rem := t.drop (i + FINAL_RANKING.length)
    let strict := (findallNumbered rem).map (fun m => (searchResp m).getD [])
    if strict.isEmpty then findallResp rem else strict

/-- Computable minimum on ℚ (Python's `min`). -/
def qmin (a b : ℚ) : ℚ := if a ≤ b then a else b

/-- Computable maximum on ℚ (Python's `max`). -/
def qmax (a b : ℚ) : ℚ := if a ≤ b then b else a

/-! ## Generic scanners used by the complexity analyser -/

/-- Fuelled worker computing the maximal runs of characters satisfying `p`
(the matches of `re.findall` for a pattern like `\w+`). -/
def runsOfGo (p : Char → Bool) : Nat → List Char → List (List Char)
  | 0, _ => []
  | _ + 1, [] => []
  | fuel + 1, c :: t =>
    if p c then (c :: t.takeWhile p) :: runsOfGo p fuel (t.dropWhile p)
    else runsOfGo p fuel t

/-- Maximal runs of characters satisfying `p`. -/
def runsOf (p : Char → Bool) (s : List Char) : List (List Char) :=
  runsOfGo p s.length s

/-- Matches of `re.findall(r'\b\w+\b', s)`: the maximal word-character runs. -/
def wordTokens (s : List Char) : List (List Char) :=
  runsOf isPyWord s

/-- Fuelled counter of non-overlapping leftmost matches: at each position the
matcher either succeeds (the scan resumes at the returned rest, which every
matcher used here makes strictly shorter) or the scan advances one
character. -/
def countScanGo (m : List Char → Option (List Char)) : Nat → List Char → Nat
  | 0, _ => 0
  | _ + 1, [] => 0
  | fuel + 1, c :: t =>
    match m (c :: t) with
    | some rest => 1 + countScanGo m fuel rest
    | none => countScanGo m fuel t

/-- Number of non-overlapping matches of `m` in `s` (the length of the
corresponding `re.findall`). -/
def countScan (m : List Char → Option (List Char)) (s : List Char) : Nat :=
  countScanGo m s.length s

/-! ## `analyze_query_complexity` (routing/complexity.py, lines 74–168) -/

/-- Technical terms from `TECHNICAL_TERMS` in routing/complexity.py. -/
def TECHNICAL_TERMS : List String :=
  ["algorithm", "architecture", "async", "asynchronous", "api", "backend",
   "cache", "class", "compiler", "complexity", "concurrent", "database",
   "debug", "deploy", "distributed", "docker", "encryption", "frontend",
   "function", "git", "hash", "implement", "inheritance", "interface",
   "kubernetes", "lambda", "latency", "microservice", "middleware",
   "multithread", "network", "optimization", "parallel", "pipeline",
   "polymorphism", "protocol", "queue", "recursion", "refactor", "regex",
   "rest", "scalability", "schema", "security", "server", "socket",
   "synchronous", "thread", "typescript", "virtualization", "webpack",
   "theorem", "proof", "equation", "integral", "derivative", "matrix",
   "vector", "statistical", "hypothesis", "correlation", "regression",
   "probability", "quantum", "relativity", "entropy", "thermodynamic",
   "epistemology", "ontology", "metaphysics", "utilitarian", "deontological",
   "consequentialism", "categorical", "existential", "phenomenology",
   "tradeoff", "trade-off", "compare", "contrast", "analyze", "evaluate",
   "implications", "consequences", "nuanced", "multifaceted", "comprehensive"]

/-- Simple-question indicators from `SIMPLE_INDICATORS` (substring tests). -/
def SIMPLE_INDICATORS : List String :=
  ["what is", "what\x27s", "who is", "who\x27s", "when is", "when was",
   "where is", "where\x27s", "how many", "how much", "how old",
   "define", "definition of", "meaning of"]

/-- Ambiguity indicators from `AMBIGUITY_INDICATORS` (substring tests). -/
def AMBIGUITY_INDICATORS : List String :=
  ["best way", "should i", "which is better", "what do you think",
   "opinion on", "advice", "recommend", "suggestion", "depends on",
   "it varies", "context", "situation", "case by case"]

/-- Sequencing words of the first multi-part pattern
`\b(first|second|third|finally|also|additionally|moreover|furthermore)\b`.
A match of this alternation under word boundaries is exactly a maximal
word-character run equal to one of the alternatives, so the `findall` count is
the number of such word tokens. -/
def MULTI_SEQ_WORDS : List String :=
  ["first", "second", "third", "finally", "also", "additionally", "moreover",
   "furthermore"]

/-- Match one of `should|would|could|can|will` followed by a word boundary at
the head of `s` (alternatives tried in source order; their prefixes do not
overlap in a way that would make backtracking succeed where this fails). -/
def matchModal (s : List Char) : Option (List Char) :=
  let tryWord : String → Option (List Char) := fun w =>
    if w.data.isPrefixOf s then
      match s.drop w.length with
      | [] => some []
      | c :: rest => if isPyWord c then none else some (c :: rest)
    else none
  (tryWord "should").orElse fun _ =>
  (tryWord "would").orElse fun _ =>
  (tryWord "could").orElse fun _ =>
  (tryWord "can").orElse fun _ =>
  tryWord "will"

/-- Tail of the pattern `\b(and|or)\s+\w+\s+(should|…)\b` after the
conjunction: at least one whitespace, a word run, at least one whitespace,
then a modal with a trailing word boundary.  Each greedy piece is a maximal
munch, exact because the character classes of adjacent pieces are disjoint. -/
def p2Tail (r : List Char) : Option (List Char) :=
  let sp1 := r.takeWhile isPySpace
  if sp1.isEmpty then none
  else
    let r1 := r.drop sp1.length
    let w := r1.takeWhile isPyWord
    if w.isEmpty then none
    else
      let r2 := r1.drop w.length
      let sp2 := r2.takeWhile isPySpace
      if sp2.isEmpty then none
      else matchModal (r2.drop sp2.length)

/-- Match `(and|or)\s+\w+\s+(should|would|could|can|will)\b` at the head of
`s`; the caller checks the word boundary before the conjunction. -/
def matchP2 (s : List Char) : Option (List Char) :=
  if "and".data.isPrefixOf s then p2Tail (s.drop 3)
  else if "or".data.isPrefixOf s then p2Tail (s.drop 2)
  else none

/-- Fuelled counter for the second multi-part pattern, tracking whether the
previous character was a word character (for the leading `\b`). -/
def countP2Go : Nat → Bool → List Char → Nat
  | 0, _, _ => 0
  | _ + 1, _, [] => 0
  | fuel + 1, prevW, c :: t =>
    if prevW then countP2Go fuel (isPyWord c) t
    else
      match matchP2 (c :: t) with
      | some rest => 1 + countP2Go fuel true rest
      | none => countP2Go fuel (isPyWord c) t

/-- Number of matches of `\b(and|or)\s+\w+\s+(should|would|could|can|will)\b`. -/
def countP2 (s : List Char) : Nat :=
  countP2Go s.length false s

/-- Match the numbered-list pattern `\d+\.\s+` at the head of `s`. -/
def matchNumDot (s : List Char) : Option (List Char) :=
  let digits := s.takeWhile isPyDigit
  if digits.isEmpty then none
  else
    match s.drop digits.length with
    | '.' :: r =>
      let sp := r.takeWhile isPySpace
      if sp.isEmpty then none else some (r.drop sp.length)
    | _ => none

/-- Bullet characters of the pattern `[â€¢\-\*]` in routing/complexity.py: the
source file stores the bullet point U+2022 as the three mojibake characters
U+00E2, U+20AC, U+00A2, plus literal hyphen and asterisk. -/
def isBulletChar (c : Char) : Bool :=
  c = Char.ofNat 0xE2 || c = Char.ofNat 0x20AC || c = Char.ofNat 0xA2 ||
  c = '-' || c = '*'

/-- Match the bullet pattern `[â€¢\-\*]\s+` at the head of `s`. -/
def matchBulletSp (s : List Char) : Option (List Char) :=
  match s with
  | b :: r =>
    if isBulletChar b then
      let sp := r.takeWhile isPySpace
      if sp.isEmpty then none else some (r.drop sp.length)
    else none
  | [] => none

/-- Match the multiple-question pattern `\?\s+\w` at the head of `s`. -/
def matchQSpW (s : List Char) : Option (List Char) :=
  match s with
  | '?' :: r =>
    let sp := r.takeWhile isPySpace
    if sp.isEmpty then none
    else
      match r.drop sp.length with
      | c :: rest => if isPyWord c then some rest else none
      | [] => none
  | _ => none

/-- Result of the complexity analysis: the clamped score together with the
five contributing factors (the source's `factors` dict; the presentational
`reasoning` string is not modelled). -/
structure ComplexityAnalysis where
  score : ℚ
  length_factor : ℚ
  simplicity : ℚ
  technical : ℚ
  multi_part : ℚ
  ambiguity : ℚ
  deriving Repr, DecidableEq

/-- Factor 1: query length (0.0 – 0.25). -/
def lengthScore (query : String) : ℚ :=
  let word_count := (wordTokens (pyLower query.data)).length
  if word_count ≤ 5 then 0
  else if word_count ≤ 15 then 0.1
  else if word_count ≤ 30 then 0.15
  else if word_count ≤ 50 then 0.2
  else 0.25

/-- Factor 2: simple-question detection (−0.2 if any indicator occurs). -/
def simpleScore (query : String) : ℚ :=
  if SIMPLE_INDICATORS.any (fun ind => containsSub ind.data (pyLower query.data))
  then -0.2 else 0

/-- Number of word tokens of the query that are technical terms. -/
def techCount (query : String) : Nat :=
  (wordTokens (pyLower query.data)).countP
    (fun w => TECHNICAL_TERMS.any (fun t => t.data == w))

/-- Factor 3: technical terms (0.0 – 0.3): three times the technical-term
density, capped. -/
def techScore (query : String) : ℚ :=
  let word_count := (wordTokens (pyLower query.data)).length
  let tech_ratio : ℚ := (techCount query : ℚ) / (max word_count 1 : ℚ)
  qmin (tech_ratio * 3) 0.3

/-- Total number of multi-part matches: the five `MULTI_PART_PATTERNS` counts
plus `question_marks - 1` when the query holds more than one `?`. -/
def multiPartCount (query : String) : Nat :=
  let ql := pyLower query.data
  let pattern_count :=
    (wordTokens ql).countP (fun w => MULTI_SEQ_WORDS.any (fun t => t.data == w))
    + countP2 ql
    + countScan matchNumDot ql
    + countScan matchBulletSp ql
    + countScan matchQSpW ql
  let question_marks := query.data.count '?'
  pattern_count + (if 1 < question_marks then question_marks - 1 else 0)

/-- Factor 4: multi-part structure (0.0 – 0.25). -/
def multiScore (query : String) : ℚ :=
  qmin ((multiPartCount query : ℚ) * 0.1) 0.25

/-- Number of ambiguity indicators occurring in the query. -/
def ambiguityCount (query : String) : Nat :=
  (AMBIGUITY_INDICATORS.countP (fun ind => containsSub ind.data (pyLower query.data)))

/-- Factor 5: ambiguity / subjectivity (0.0 – 0.2). -/
def ambiguityScore (query : String) : ℚ :=
  qmin ((ambiguityCount query : ℚ) * 0.1) 0.2

/-- Sum of the five factors, before clamping. -/
def rawComplexityTotal (query : String) : ℚ :=
  lengthScore query + simpleScore query + techScore query
    + multiScore query + ambiguityScore query

/-- Embedding of `analyze_query_complexity`: the five factors are summed and
the total is clamped to [0, 1]. -/
def analyze_query_complexity (query : String) : ComplexityAnalysis :=
  { score := qmax 0 (qmin 1 (rawComplexityTotal query))
    length_factor := lengthScore query
    simplicity := simpleScore query
    technical := techScore query
    multi_part := multiScore query
    ambiguity := ambiguityScore query }

/-! ## `route_query_smart` (routing/smart_router.py, lines 30–141) -/

/-- The `SMART_ROUTING_CONFIG` dictionary shape from config.py. -/
structure SmartRoutingConfig where
  enabled : Bool
  complexity_threshold_single : ℚ
  complexity_threshold_full : ℚ
  single_model : String
  mini_council_size : Nat
  deriving Repr, DecidableEq

/-- Default `SMART_ROUTING_CONFIG` from config.py. -/
def SMART_ROUTING_CONFIG : SmartRoutingConfig :=
  { enabled := true
    complexity_threshold_single := 0.3
    complexity_threshold_full := 0.7
    single_model := "anthropic/claude-sonnet-4.5"
    mini_council_size := 3 }

/-- The configured council from config.py. -/
def COUNCIL_MODELS : List String :=
  ["openai/gpt-5.1", "google/gemini-3-pro-preview",
   "anthropic/claude-sonnet-4.5", "x-ai/grok-4"]

/-- Provider family of a model identifier: the part before the first `/`, or
`"unknown"` when there is no `/`. -/
def providerOf (m : String) : String :=
  if m.data.contains '/' then String.mk (m.data.takeWhile (fun c => c != '/'))
  else "unknown"

/-- Group models by provider, preserving first-seen provider order and
per-provider model order (the `providers` dict of `select_diverse_models`). -/
def groupByProvider (models : List String) : List (String × List String) :=
  models.foldl
    (fun acc m =>
      let p := providerOf m
      if acc.any (fun pr => pr.1 == p) then
        acc.map (fun pr => if pr.1 == p then (pr.1, pr.2 ++ [m]) else pr)
      else acc ++ [(p, [m])])
    []

/-- Lookup in the provider table. -/
def provLookup (k : String) (l : List (String × List String)) : Option (List String) :=
  (l.find? (fun pr => pr.1 == k)).map (·.2)

/-- Replace the model list of provider `k`. -/
def provSet (k : String) (v : List String) (l : List (String × List String)) :
    List (String × List String) :=
  l.map (fun pr => if pr.1 == k then (k, v) else pr)

/-- Fuelled embedding of the round-robin `while` loop of
`select_diverse_models`; the loop increments `provider_index` every iteration
and breaks once it exceeds `count * len(provider_list)`, so the given fuel is
always sufficient. -/
def selectLoopGo (provider_list : List String) (count : Nat) :
    Nat → List (String × List String) → List String → Nat → List String
  | 0, _, selected, _ => selected
  | fuel + 1, providers, selected, provider_index =>
    if selected.length < count then
      let p := provider_list.getD (provider_index % provider_list.length) ""
      let step :=
        match provLookup p providers with
        | some (m :: rest) => (provSet p rest providers, selected ++ [m])
        | _ => (providers, selected)
      let idx' := provider_index + 1
      if count * provider_list.length < idx' then step.2
      else selectLoopGo provider_list count fuel step.1 step.2 idx'
    else selected

/-- Embedding of `select_diverse_models`. -/
def select_diverse_models (all_models : List String) (count : Nat) : List String :=
  if all_models.length ≤ count then all_models
  else
    let providers := groupByProvider all_models
    let provider_list := providers.map (·.1)
    selectLoopGo provider_list count (count * provider_list.length + 2) providers [] 0

/-- Routing decision (the presentational `reason` string is not modelled). -/
structure RoutingDecision where
  tier : Nat
  models : List String
  complexity : ComplexityAnalysis
  deriving Repr, DecidableEq

/-- Embedding of `route_query_smart`.  The global `SMART_ROUTING_CONFIG` and
`COUNCIL_MODELS` are passed explicitly.  When routing is disabled the source
returns the full council with a score-1.0 analysis and an empty factors dict
(zeros here). -/
def route_query_smart (config : SmartRoutingConfig) (council : List String)
    (query : String) (force_tier : Option Nat) : RoutingDecision :=
  if !config.enabled then
    { tier := 3, models := council, complexity := ⟨1, 0, 0, 0, 0, 0⟩ }
  else
    let complexity := analyze_query_complexity query
    let tier :=
      match force_tier with
      | some t => t
      | none =>
        if complexity.score < config.complexity_threshold_single then 1
        else if complexity.score < config.complexity_threshold_full then 2
        else 3
    let models :=
      if tier = 1 then [config.single_model]
      else if tier = 2 then select_diverse_models council config.mini_council_size
      else council
    { tier := tier, models := models, complexity := complexity }

/-- Tier selection as claim C3 words it: a pure function of the score and the
two thresholds. -/
def tierFromScore (score t_single t_full : ℚ) : Nat :=
  if score < t_single then 1 else if score < t_full then 2 else 3

/-- Tier recommendation property of `ComplexityAnalysis` in
routing/complexity.py (thresholds hard-coded to 0.3 and 0.7). -/
def ComplexityAnalysis.tier (a : ComplexityAnalysis) : Nat :=
  if a.score < 0.3 then 1 else if a.score < 0.7 then 2 else 3

/-! ## `extract_features` (routing/ml/features.py) -/

/-- Technical keywords from `TECHNICAL_KEYWORDS` in routing/ml/features.py
(substring tests; this set differs from the complexity analyser's). -/
def ML_TECHNICAL_KEYWORDS : List String :=
  ["code", "programming", "algorithm", "database", "api", "function",
   "class", "variable", "bug", "error", "debug", "compile", "runtime",
   "python", "javascript", "java", "typescript", "react", "node",
   "sql", "docker", "kubernetes", "aws", "cloud", "server", "deploy"]

/-- Reasoning keywords from `REASONING_KEYWORDS`. -/
def ML_REASONING_KEYWORDS : List String :=
  ["analyze", "compare", "evaluate", "explain", "why", "how", "because",
   "reason", "logic", "argument", "evidence", "conclusion", "therefore",
   "consider", "weigh", "trade-off", "pros", "cons", "implications"]

/-- Creative keywords from `CREATIVE_KEYWORDS`. -/
def ML_CREATIVE_KEYWORDS : List String :=
  ["write", "create", "design", "imagine", "story", "poem", "creative",
   "innovate", "brainstorm", "ideate", "novel", "unique", "original"]

/-- Words of the conditional pattern `\b(if|when|unless|provided|assuming)\b`. -/
def CONDITIONAL_WORDS : List String :=
  ["if", "when", "unless", "provided", "assuming"]

/-- Words of the comparison pattern
`\b(vs|versus|compare|better|worse|difference)\b`. -/
def COMPARISON_WORDS : List String :=
  ["vs", "versus", "compare", "better", "worse", "difference"]

/-- Words of the conjunction pattern
`\b(and|but|or|however|therefore|because)\b`. -/
def CONJUNCTION_WORDS : List String :=
  ["and", "but", "or", "however", "therefore", "because"]

/-- Prefix test for a literal followed by one whitespace character (the shape
`^lit\s` of the `SIMPLE_PATTERNS`, applied with `re.match`). -/
def startsWithLitSp (lit : String) (s : List Char) : Bool :=
  lit.data.isPrefixOf s &&
    (match s.drop lit.length with
     | c :: _ => isPySpace c
     | [] => false)

/-- The `SIMPLE_PATTERNS` of features.py, each anchored at the start of the
lower-cased query; the alternations `(was|did|is)`, `(do|does)` and
`(you|one)` are expanded into the equivalent literal prefixes. -/
def matchesSimplePattern (s : List Char) : Bool :=
  startsWithLitSp "what is" s ||
  startsWithLitSp "who is" s ||
  startsWithLitSp "when was" s ||
  startsWithLitSp "when did" s ||
  startsWithLitSp "when is" s ||
  startsWithLitSp "where is" s ||
  startsWithLitSp "define" s ||
  startsWithLitSp "how do you" s ||
  startsWithLitSp "how do one" s ||
  startsWithLitSp "how does you" s ||
  startsWithLitSp "how does one" s

/-- Python `str.split()` (split on whitespace runs, no empty pieces): the
maximal runs of non-whitespace characters. -/
def pySplitWs (s : List Char) : List (List Char) :=
  runsOf (fun c => !isPySpace c) s

/-- Sentence-ending characters of the split pattern `[.!?]+`. -/
def isSentEnd (c : Char) : Bool :=
  c = '.' || c = '!' || c = '?'

/-- Number of sentences: `re.split(r'[.!?]+', query)` keeps the segments
between separator runs, and the source counts those whose `strip()` is
non-empty — exactly the maximal runs of non-separator characters containing a
non-whitespace character. -/
def sentenceCount (s : List Char) : Nat :=
  (runsOf (fun c => !isSentEnd c) s).countP (fun seg => seg.any (fun c => !isPySpace c))

/-- Match `\s*[-*â€¢]\s` at the head of `s` (a bullet line after its `^`). -/
def matchBulletLine (s : List Char) : Bool :=
  let sp := s.takeWhile isPySpace
  match s.drop sp.length with
  | b :: rest =>
    isBulletChar b &&
      (match rest with
       | d :: _ => isPySpace d
       | [] => false)
  | [] => false

/-- Fuelled multiline search for `^\s*[-*â€¢]\s`: try the bullet pattern at the
string start and after every newline. -/
def bulletLineGo : Nat → Bool → List Char → Bool
  | 0, _, _ => false
  | _ + 1, _, [] => false
  | fuel + 1, atStart, c :: t =>
    (atStart && matchBulletLine (c :: t)) || bulletLineGo fuel (c = '\n') t

/-- `re.search(r'^\s*[-*â€¢]\s', query, re.MULTILINE)` as a Boolean. -/
def hasBulletPoints (s : List Char) : Bool :=
  bulletLineGo s.length true s

/-- The backtick character (written numerically). -/
def BT : Char := Char.ofNat 96

/-- Fuelled search for an inline code span: a backtick, at least one
non-backtick character, then a backtick (the pattern with one-or-more
non-backtick characters between two backticks). -/
def hasInlineCodeGo : Nat → List Char → Bool
  | 0, _ => false
  | _ + 1, [] => false
  | fuel + 1, c :: t =>
    if c = BT then
      let mid := t.takeWhile (fun d => d != BT)
      let rest := t.drop mid.length
      if !mid.isEmpty && !rest.isEmpty then true
      else hasInlineCodeGo fuel t
    else hasInlineCodeGo fuel t

/-- `'```' in query or bool(re.search(r'`[^`]+`', query))`. -/
def hasCodeBlock (s : List Char) : Bool :=
  containsSub [BT, BT, BT] s || hasInlineCodeGo s.length s

/-- Match the nested-clause pattern `,\s*\w+\s+\w+` at the head of `s`. -/
def matchNested (s : List Char) : Option (List Char) :=
  match s with
  | ',' :: r =>
    let sp := r.takeWhile isPySpace
    let r1 := r.drop sp.length
    let w1 := r1.takeWhile isPyWord
    if w1.isEmpty then none
    else
      let r2 := r1.drop w1.length
      let sp2 := r2.takeWhile isPySpace
      if sp2.isEmpty then none
      else
        let r3 := r2.drop sp2.length
        let w2 := r3.takeWhile isPyWord
        if w2.isEmpty then none else some (r3.drop w2.length)
  | _ => none

/-- The `QueryFeatures` dataclass of routing/ml/features.py. -/
structure QueryFeatures where
  char_count : Nat
  word_count : Nat
  sentence_count : Nat
  avg_word_length : ℚ
  question_count : Nat
  has_multiple_questions : Bool
  has_bullet_points : Bool
  has_code_block : Bool
  technical_keyword_count : Nat
  reasoning_keyword_count : Nat
  creative_keyword_count : Nat
  matches_simple_pattern : Bool
  has_conditional : Bool
  has_comparison : Bool
  nested_clause_count : Nat
  conjunction_count : Nat
  deriving Repr, DecidableEq

/-- Embedding of `extract_features`. -/
def extract_features (query : String) : QueryFeatures :=
  let q := query.data
  let ql := pyLower q
  let words := pySplitWs q
  let word_count := words.length
  { char_count := q.length
    word_count := word_count
    sentence_count := sentenceCount q
    avg_word_length :=
      (((words.map List.length).sum : ℚ)) / ((max word_count 1 : ℕ) : ℚ)
    question_count := q.count '?'
    has_multiple_questions := decide (1 < q.count '?')
    has_bullet_points := hasBulletPoints q
    has_code_block := hasCodeBlock q
    technical_keyword_count := ML_TECHNICAL_KEYWORDS.countP (fun kw => containsSub kw.data ql)
    reasoning_keyword_count := ML_REASONING_KEYWORDS.countP (fun kw => containsSub kw.data ql)
    creative_keyword_count := ML_CREATIVE_KEYWORDS.countP (fun kw => containsSub kw.data ql)
    matches_simple_pattern := matchesSimplePattern ql
    has_conditional := (wordTokens ql).any (fun w => CONDITIONAL_WORDS.any (fun t => t.data == w))
    has_comparison := (wordTokens ql).any (fun w => COMPARISON_WORDS.any (fun t => t.data == w))
    nested_clause_count := countScan matchNested q
    conjunction_count := (wordTokens ql).countP (fun w => CONJUNCTION_WORDS.any (fun t => t.data == w)) }

/-- Boolean feature as a number, as in `QueryFeatures.to_vector`. -/
def boolFeat (b : Bool) : ℚ := if b then 1 else 0

/-- Embedding of `QueryFeatures.to_vector` (the 16 normalised features). -/
def QueryFeatures.to_vector (f : QueryFeatures) : List ℚ :=
  [(f.char_count : ℚ) / 500,
   (f.word_count : ℚ) / 100,
   (f.sentence_count : ℚ) / 10,
   f.avg_word_length / 10,
   (f.question_count : ℚ),
   boolFeat f.has_multiple_questions,
   boolFeat f.has_bullet_points,
   boolFeat f.has_code_block,
   (f.technical_keyword_count : ℚ) / 5,
   (f.reasoning_keyword_count : ℚ) / 5,
   (f.creative_keyword_count : ℚ) / 5,
   boolFeat f.matches_simple_pattern,
   boolFeat f.has_conditional,
   boolFeat f.has_comparison,
   (f.nested_clause_count : ℚ) / 5,
   (f.conjunction_count : ℚ) / 5]

/-! ## `RoutingModel` (routing/ml/model.py) -/

/-- The 16 heuristically-initialised weights of
`RoutingModel._initialize_weights` (the state of the model with zero training
samples). -/
def initialWeights : List ℚ :=
  [0.3, 0.4, 0.3, 0.1, 0.4, 0.5, 0.2, 0.3,
   0.3, 0.4, 0.2, -0.5, 0.3, 0.4, 0.3, 0.2]

/-- A routing prediction (the presentational `reasoning` string and the
features echo are not modelled). -/
structure RoutingPrediction where
  tier : Nat
  confidence : ℚ
  deriving Repr, DecidableEq

/-- Python `abs` on ℚ. -/
def qabs (a : ℚ) : ℚ := if a < 0 then -a else a

/-- Linear complexity score of `RoutingModel.predict`:
`sum(w * f for w, f in zip(self.weights, feature_vector))`. -/
def mlComplexityScore (weights : List ℚ) (query : String) : ℚ :=
  ((weights.zip (extract_features query).to_vector).map (fun p => p.1 * p.2)).sum

/-- Embedding of `RoutingModel.predict` for a model with weights `weights`
(the freshly-initialised model uses `initialWeights`).  The source also
computes per-tier `tier_scores` from the biases but never uses them; the tier
and confidence come from the hard-coded 0.3 / 0.7 thresholds.  The final
confidence is clamped by `min(1.0, max(0.0, confidence))`. -/
def RoutingModel_predict (weights : List ℚ) (query : String) : RoutingPrediction :=
  if mlComplexityScore weights query < 0.3 then
    { tier := 1
      confidence := qmin 1 (qmax 0 (1 - mlComplexityScore weights query / 0.3)) }
  else if mlComplexityScore weights query < 0.7 then
    { tier := 2
      confidence := qmin 1 (qmax 0 (1 - qabs (mlComplexityScore weights query - 0.5) / 0.2)) }
  else
    { tier := 3
      confidence := qmin 1 (qmax 0 (qmin 1 ((mlComplexityScore weights query - 0.7) / 0.3 + 0.5))) }

/-! ## Council data model (council.py)

Stage-1 results are `{"model": …, "response": …}` dicts (plus an `is_user`
flag in the user-participation variant); Stage-2 results are
`{"model": …, "ranking": …, "parsed_ranking": …}`; Stage 3 produces one
`{"model": …, "response": …}` dict.  The metadata dict of a run carries the
label map and the aggregate rankings. -/

/-- One Stage-1 result. -/
structure Stage1Item where
  model : String
  response : String
  is_user : Bool := false
  deriving Repr, DecidableEq

/-- One Stage-2 ranking record. -/
structure Stage2Item where
  model : String
  ranking : String
  parsed_ranking : List String
  deriving Repr, DecidableEq

/-- The Stage-3 synthesis result. -/
structure Stage3Result where
  model : String
  response : String
  deriving Repr, DecidableEq

/-- One entry of the aggregate ranking
(`{"model", "average_rank", "rankings_count"}`). -/
structure AggregateEntry where
  model : String
  average_rank : ℚ
  rankings_count : Nat
  deriving Repr, DecidableEq

/-- Run metadata as produced by `run_full_council`. -/
structure RunMetadata where
  label_to_model : List (String × String)
  aggregate_rankings : List AggregateEntry
  deriving Repr, DecidableEq

/-! ## Semantic cache (cache/storage.py, cache/middleware.py)

Timestamps (`created_at`, `datetime.utcnow()`) are modelled as rational hours;
ISO-format timestamp strings compare lexicographically exactly as their times
compare, so the source's string comparisons become `≤` on ℚ.  The cache key
`str(hash(normalized))` is modelled by the normalised query string itself —
a deterministic, injective stand-in for the hash.  Disk persistence
(`_save_to_disk`, `_load_from_disk`) is I/O and is not modelled; the
similarity function is float-valued in the source (`math.sqrt`), so the
similarity scorer is passed as an explicit function argument. -/

/-- The `SEMANTIC_CACHE_CONFIG` dictionary shape from config.py. -/
structure SemanticCacheConfig where
  enabled : Bool
  similarity_threshold : ℚ
  max_cache_size : Nat
  ttl_hours : ℚ
  deriving Repr, DecidableEq

/-- Default `SEMANTIC_CACHE_CONFIG` from config.py. -/
def SEMANTIC_CACHE_CONFIG : SemanticCacheConfig :=
  { enabled := true
    similarity_threshold := 0.85
    max_cache_size := 1000
    ttl_hours := 24 }

/-- The `CachedResponse` dataclass. -/
structure CachedResponse where
  query : String
  stage1_results : List Stage1Item
  stage2_results : List Stage2Item
  stage3_result : Stage3Result
  metadata : RunMetadata
  created_at : ℚ
  hit_count : Nat
  routing_tier : Option Nat
  deriving Repr, DecidableEq

/-- `CachedResponse.is_expired`: the entry is expired when the current time is
strictly past `created_at + ttl_hours`. -/
def CachedResponse.is_expired (e : CachedResponse) (ttl_hours now : ℚ) : Bool :=
  decide (e.created_at + ttl_hours < now)

/-- The cache store: an insertion-ordered key-value list modelling the Python
dict `self.cache`. -/
structure SemanticCache where
  entries : List (String × CachedResponse)
  deriving Repr, DecidableEq

/-- Dict lookup by key. -/
def dictLookup (k : String) (l : List (String × CachedResponse)) :
    Option CachedResponse :=
  (l.find? (fun p => p.1 == k)).map (·.2)

/-- Dict assignment `d[k] = v`: overwrite in place if the key exists
(Python dicts keep the original position), else append. -/
def dictInsert (k : String) (v : CachedResponse)
    (l : List (String × CachedResponse)) : List (String × CachedResponse) :=
  if l.any (fun p => p.1 == k) then
    l.map (fun p => if p.1 == k then (k, v) else p)
  else l ++ [(k, v)]

/-- Dict deletion `del d[k]`. -/
def dictErase (k : String) (l : List (String × CachedResponse)) :
    List (String × CachedResponse) :=
  l.filter (fun p => p.1 != k)

/-- `SemanticCache._generate_key`: lower-case and strip the query (the
`str(hash(·))` of the source is modelled by the normalised text itself). -/
def generate_key (query : String) : String :=
  String.mk (pyStrip (pyLower query.data))

/-- Stable insertion into a list sorted by `created_at` (places the new
element before the first strictly-later-or-equal one seen from the left,
which together with `sortByCreated` reproduces Python's stable `sorted`). -/
def insortByCreated (kv : String × CachedResponse) :
    List (String × CachedResponse) → List (String × CachedResponse)
  | [] => [kv]
  | y :: ys =>
    if kv.2.created_at ≤ y.2.created_at then kv :: y :: ys
    else y :: insortByCreated kv ys

/-- Stable sort of the cache items by `created_at`
(`sorted(self.cache.items(), key=lambda x: x[1].created_at)`). -/
def sortByCreated : List (String × CachedResponse) → List (String × CachedResponse)
  | [] => []
  | x :: xs => insortByCreated x (sortByCreated xs)

/-- `SemanticCache._enforce_size_limit`: when the store exceeds
`max_cache_size`, delete the `excess` oldest entries (pure recency
eviction). -/
def enforce_size_limit (cfg : SemanticCacheConfig)
    (entries : List (String × CachedResponse)) : List (String × CachedResponse) :=
  if cfg.max_cache_size < entries.length then
    entries.filter (fun kv =>
      !(((sortByCreated entries).take (entries.length - cfg.max_cache_size)).map (·.1)).contains kv.1)
  else entries

/-- `SemanticCache.get`: exact-match lookup.  On a fresh hit the entry's
`hit_count` is incremented in place and the updated entry returned; an expired
entry is deleted and the lookup misses. -/
def SemanticCache.get (c : SemanticCache) (cfg : SemanticCacheConfig)
    (now : ℚ) (query : String) : Option CachedResponse × SemanticCache :=
  match dictLookup (generate_key query) c.entries with
  | some entry =>
    if !(entry.is_expired cfg.ttl_hours now) then
      (some { entry with hit_count := entry.hit_count + 1 },
       ⟨dictInsert (generate_key query) { entry with hit_count := entry.hit_count + 1 } c.entries⟩)
    else (none, ⟨dictErase (generate_key query) c.entries⟩)
  | none => (none, c)

/-- Scan for the best candidate in `SemanticCache.find_similar`: keep the
first entry whose similarity meets the threshold and strictly exceeds the
best score so far (initially 0.0). -/
def findBestGo (sim : String → String → ℚ) (threshold : ℚ) (query : String) :
    ℚ → Option (String × CachedResponse) → List (String × CachedResponse) →
    Option (String × CachedResponse)
  | _, best, [] => best
  | best_score, best, kv :: rest =>
    if threshold ≤ sim query kv.2.query ∧ best_score < sim query kv.2.query then
      findBestGo sim threshold query (sim query kv.2.query) (some kv) rest
    else findBestGo sim threshold query best_score best rest

/-- `SemanticCache.find_similar`: iterate over a snapshot of the items,
deleting expired entries as they are seen, score the remaining ones with the
similarity function, and return (with an in-place `hit_count` bump) the best
match at or above the threshold. -/
def SemanticCache.find_similar (c : SemanticCache) (cfg : SemanticCacheConfig)
    (sim : String → String → ℚ) (now : ℚ) (query : String) :
    Option CachedResponse × SemanticCache :=
  match findBestGo sim cfg.similarity_threshold query 0 none
      (c.entries.filter (fun kv => !(kv.2.is_expired cfg.ttl_hours now))) with
  | some (k, e) =>
    (some { e with hit_count := e.hit_count + 1 },
     ⟨(c.entries.filter (fun kv => !(kv.2.is_expired cfg.ttl_hours now))).map
        (fun kv => if kv.1 == k then (k, { e with hit_count := e.hit_count + 1 }) else kv)⟩)
  | none => (none, ⟨c.entries.filter (fun kv => !(kv.2.is_expired cfg.ttl_hours now))⟩)

/-- The freshly-built entry of `SemanticCache.set` (hit count 0, creation
time `now`). -/
def CachedResponse.fresh (query : String) (stage1 : List Stage1Item)
    (stage2 : List Stage2Item) (stage3 : Stage3Result) (metadata : RunMetadata)
    (now : ℚ) (routing_tier : Option Nat) : CachedResponse :=
  { query := query
    stage1_results := stage1
    stage2_results := stage2
    stage3_result := stage3
    metadata := metadata
    created_at := now
    hit_count := 0
    routing_tier := routing_tier }

/-- `SemanticCache.set`: build a fresh entry (hit count 0, creation time now),
assign it under the normalised key, then enforce the size limit (the
synchronous disk write is I/O and not modelled). -/
def SemanticCache.set (c : SemanticCache) (cfg : SemanticCacheConfig)
    (now : ℚ) (query : String) (stage1 : List Stage1Item)
    (stage2 : List Stage2Item) (stage3 : Stage3Result) (metadata : RunMetadata)
    (routing_tier : Option Nat) : SemanticCache :=
  ⟨enforce_size_limit cfg (dictInsert (generate_key query)
    (CachedResponse.fresh query stage1 stage2 stage3 metadata now routing_tier)
    c.entries)⟩

/-- `check_cache` (cache/middleware.py): exact match first — reporting
similarity exactly 1.0 — then the similarity scan, reporting the recomputed
similarity of the found entry's query. -/
def check_cache (cfg : SemanticCacheConfig) (sim : String → String → ℚ)
    (now : ℚ) (query : String) (cache : SemanticCache) :
    Option (CachedResponse × ℚ) × SemanticCache :=
  if !cfg.enabled then (none, cache)
  else
    match cache.get cfg now query with
    | (some exact, c') => (some (exact, 1), c')
    | (none, c') =>
      match c'.find_similar cfg sim now query with
      | (some similar, c'') => (some (similar, sim query similar.query), c'')
      | (none, c'') => (none, c'')

/-- A demonstration entry used by concrete witnesses. -/
def demoEntry : CachedResponse :=
  { query := "What is AI?"
    stage1_results := [{ model := "m1", response := "r1" }]
    stage2_results := []
    stage3_result := { model := "chair", response := "final answer" }
    metadata := { label_to_model := [], aggregate_rankings := [] }
    created_at := 0
    hit_count := 0
    routing_tier := some 1 }

/-- A demonstration one-entry cache used by concrete witnesses. -/
def demoCache : SemanticCache :=
  ⟨[(generate_key "What is AI?", demoEntry)]⟩

/-! ## The model gateway and the three-stage pipeline (council.py)

Modelled from the spec: the Model Gateway boundary
(`invoke(modelID, messages, timeoutSeconds) → {content, inputTokens,
outputTokens} | failure`) is an external network collaborator, so it is an
explicit function from (model, user-message content) to an optional result;
every message list built in council.py is a single user message, identified
here with its content string.  `query_models_parallel` maps a model list to a
dict in insertion order, which is the models' order.  To express which stages
issue gateway calls, every stage returns the list of (stage-tag, model) calls
it makes. -/

/-- A gateway result: content plus optional token usage. -/
structure LLMResult where
  content : String
  usage : Option (Nat × Nat)
  deriving Repr, DecidableEq

/-- The gateway: model identifier and user-message content to optional
result. -/
def Gateway : Type := String → String → Option LLMResult

/-- Stage tag of a gateway call. -/
inductive CallTag where
  | stage1
  | stage2
  | stage3
  deriving Repr, DecidableEq

/-- One usage record. -/
structure UsageItem where
  model : String
  input_tokens : Nat
  output_tokens : Nat
  deriving Repr, DecidableEq

/-- `query_models_parallel`: one call per model, results keyed by model in
the models' order. -/
def query_models_parallel (g : Gateway) (models : List String)
    (content : String) : List (String × Option LLMResult) :=
  models.map (fun m => (m, g m content))

/-- The configured chairman model from config.py. -/
def CHAIRMAN_MODEL : String := "google/gemini-3-pro-preview"

/-- The `DEBATE_CONFIG` dictionary shape from config.py. -/
structure DebateConfig where
  enabled : Bool
  max_rounds : Nat
  consensus_threshold : ℚ
  min_critique_length : Nat
  deriving Repr, DecidableEq

/-- Default `DEBATE_CONFIG` from config.py. -/
def DEBATE_CONFIG : DebateConfig :=
  { enabled := true, max_rounds := 3, consensus_threshold := 0.8,
    min_critique_length := 50 }

/-- `stage1_collect_responses`: query all council models in parallel, keep
only the successful responses (in request order), collect usage records for
successes that report usage. -/
def stage1_collect_responses (g : Gateway) (user_query : String) :
    List Stage1Item × List UsageItem × List (CallTag × String) :=
  ( (query_models_parallel g COUNCIL_MODELS user_query).filterMap
      (fun mr => mr.2.map (fun r =>
        ({ model := mr.1, response := r.content } : Stage1Item))),
    (query_models_parallel g COUNCIL_MODELS user_query).filterMap
      (fun mr => mr.2.bind (fun r => r.usage.map (fun u =>
        ({ model := mr.1, input_tokens := u.1, output_tokens := u.2 } : UsageItem)))),
    COUNCIL_MODELS.map (fun m => (CallTag.stage1, m)) )

/-- String form of the ranking parser, as stored in `parsed_ranking`. -/
def parseRankingStr (s : String) : List String :=
  (parse_ranking_from_text s.data).map (fun l => String.mk l)

/-- The Stage-2 ranking prompt (council.py lines 194–223), with the
anonymized responses text and the optional verification context spliced
in. -/
def rankingPrompt (user_query responses_text verification_context : String) : String :=
  "You are evaluating different responses to the following question:\n\nQuestion: "
  ++ user_query
  ++ "\n\nHere are the responses from different models (anonymized):\n\n"
  ++ responses_text
  ++ "\n\nYour task:\n1. First, evaluate each response individually. For each response, explain what it does well and what it does poorly.\n2. Then, at the very end of your response, provide a final ranking.\n\nIMPORTANT: Your final ranking MUST be formatted EXACTLY as follows:\n- Start with the line \"FINAL RANKING:\" (all caps, with colon)\n- Then list the responses from best to worst as a numbered list\n- Each line should be: number, period, space, then ONLY the response label (e.g., \"1. Response A\")\n- Do not add any other text or explanations in the ranking section\n\nExample of the correct format for your ENTIRE response:\n\nResponse A provides good detail on X but misses Y...\nResponse B is accurate but lacks depth on Z...\nResponse C offers the most comprehensive answer...\n\nFINAL RANKING:\n1. Response C\n2. Response A\n3. Response B\n"
  ++ verification_context
  ++ "\nNow provide your evaluation and ranking:"

/-- `stage2_collect_rankings`: anonymize the Stage-1 results with letter
labels in collection order, build the ranking prompt, query all council
models, and parse each verdict. -/
def stage2_collect_rankings (g : Gateway) (user_query : String)
    (stage1_results : List Stage1Item) (verification_context : String) :
    List Stage2Item × List (String × String) × List UsageItem ×
      List (CallTag × String) :=
  let labels := (List.range stage1_results.length).map
    (fun i => String.mk [Char.ofNat (65 + i)])
  let label_to_model := (labels.zip stage1_results).map
    (fun p => ("Response " ++ p.1, p.2.model))
  let responses_text := String.intercalate "\n\n"
    ((labels.zip stage1_results).map
      (fun p => "Response " ++ p.1 ++ ":\n" ++ p.2.response))
  let prompt := rankingPrompt user_query responses_text verification_context
  ( (query_models_parallel g COUNCIL_MODELS prompt).filterMap
      (fun mr => mr.2.map (fun r =>
        ({ model := mr.1, ranking := r.content,
           parsed_ranking := parseRankingStr r.content } : Stage2Item))),
    label_to_model,
    (query_models_parallel g COUNCIL_MODELS prompt).filterMap
      (fun mr => mr.2.bind (fun r => r.usage.map (fun u =>
        ({ model := mr.1, input_tokens := u.1, output_tokens := u.2 } : UsageItem)))),
    COUNCIL_MODELS.map (fun m => (CallTag.stage2, m)) )

/-- A rebuttal record from Stage 2B. -/
structure Rebuttal where
  model : String
  critiques_addressed : Nat
  rebuttal : String
  deriving Repr, DecidableEq

/-- The Stage-3 chairman prompt (council.py lines 534–553).  The rebuttals
section and the devil\x27s-advocate section are appended only when present
(`if rebuttals:` is false for both `None` and the empty list). -/
def chairmanPrompt (user_query : String) (stage1_results : List Stage1Item)
    (stage2_results : List Stage2Item) (rebuttals : List Rebuttal)
    (devils_challenge : Option String) : String :=
  "You are the Chairman of an LLM Council. Multiple AI models have provided responses to a user\x27s question, and then ranked each other\x27s responses.\n\nOriginal Question: "
  ++ user_query
  ++ "\n\nSTAGE 1 - Individual Responses:\n"
  ++ String.intercalate "\n\n" (stage1_results.map
      (fun r => "Model: " ++ r.model ++ "\nResponse: " ++ r.response))
  ++ "\n\nSTAGE 2 - Peer Rankings:\n"
  ++ String.intercalate "\n\n" (stage2_results.map
      (fun r => "Model: " ++ r.model ++ "\nRanking: " ++ r.ranking))
  ++ "\n"
  ++ (if rebuttals.isEmpty then "" else
      "\n\nREBUTTALS:\n" ++ String.intercalate "\n\n" (rebuttals.map
        (fun r => "Model: " ++ r.model ++ "\nRebuttal: " ++ r.rebuttal)))
  ++ "\n"
  ++ (match devils_challenge with
      | none => ""
      | some ch => "\n\nDEVIL\x27S ADVOCATE CHALLENGE:\n" ++ ch)
  ++ "\n\nYour task as Chairman is to synthesize all of this information into a single, comprehensive, accurate answer to the user\x27s original question. Consider:\n- The individual responses and their insights\n- The peer rankings and what they reveal about response quality\n- Any rebuttals and how they affect the strength of arguments\n- The devil\x27s advocate challenge and whether the concerns are valid\n- Any patterns of agreement or disagreement\n\nProvide a clear, well-reasoned final answer that represents the council\x27s collective wisdom:"

/-- `stage3_synthesize_final`: one chairman call; on failure return the fixed
sentinel response instead of propagating the error. -/
def stage3_synthesize_final (g : Gateway) (user_query : String)
    (stage1_results : List Stage1Item) (stage2_results : List Stage2Item)
    (rebuttals : List Rebuttal) (devils_challenge : Option String) :
    Stage3Result × List UsageItem × List (CallTag × String) :=
  match g CHAIRMAN_MODEL
      (chairmanPrompt user_query stage1_results stage2_results rebuttals
        devils_challenge) with
  | none =>
    ({ model := CHAIRMAN_MODEL,
       response := "Error: Unable to generate final synthesis." }, [],
     [(CallTag.stage3, CHAIRMAN_MODEL)])
  | some r =>
    ({ model := CHAIRMAN_MODEL, response := r.content },
     (r.usage.map (fun u =>
       ({ model := CHAIRMAN_MODEL, input_tokens := u.1,
          output_tokens := u.2 } : UsageItem))).toList,
     [(CallTag.stage3, CHAIRMAN_MODEL)])

/-! ## Aggregate rankings (council.py lines 719–763) -/

/-- Assoc-list lookup for string keys. -/
def alookup (k : String) (l : List (String × String)) : Option String :=
  (l.find? (fun p => p.1 == k)).map (·.2)

/-- Append a position for a model in the `defaultdict(list)`-style positions
map: extend the model's list in place, or add the model at the end on first
sight. -/
def appendPos (m : String) (p : Nat) : List (String × List Nat) → List (String × List Nat)
  | [] => [(m, [p])]
  | (m0, ps) :: rest =>
    if m0 == m then (m0, ps ++ [p]) :: rest
    else (m0, ps) :: appendPos m p rest

/-- Record one evaluator's parsed ranking into the positions map: for each
1-based position whose label is in the label map, append that position to the
mapped model. -/
def recordParsed (label_to_model : List (String × String)) (parsed : List String)
    (acc : List (String × List Nat)) : List (String × List Nat) :=
  parsed.enum.foldl
    (fun acc p =>
      match alookup p.2 label_to_model with
      | some model => appendPos model (p.1 + 1) acc
      | none => acc)
    acc

/-- Round to nearest integer, ties to even (the rounding of Python's
`round`). -/
def roundHalfEven (q : ℚ) : ℤ :=
  if q - (q.floor : ℚ) < 1/2 then q.floor
  else if (1 : ℚ)/2 < q - (q.floor : ℚ) then q.floor + 1
  else if q.floor % 2 = 0 then q.floor else q.floor + 1

/-- Python's `round(x, 2)` on the rational model of the float average. -/
def round2 (q : ℚ) : ℚ :=
  (roundHalfEven (q * 100) : ℚ) / 100

/-- Stable insertion into a list sorted by `average_rank`. -/
def insortByAvg (e : AggregateEntry) : List AggregateEntry → List AggregateEntry
  | [] => [e]
  | y :: ys =>
    if e.average_rank ≤ y.average_rank then e :: y :: ys
    else y :: insortByAvg e ys

/-- Stable sort by `average_rank` (Python's in-place `list.sort(key=…)`). -/
def sortByAvg : List AggregateEntry → List AggregateEntry
  | [] => []
  | x :: xs => insortByAvg x (sortByAvg xs)

/-- Embedding of `calculate_aggregate_rankings`: re-parse each evaluator's
ranking text, record every label occurrence's 1-based position against the
mapped model, average (and round to 2 decimals) per model, and sort ascending
by the rounded average. -/
def calculate_aggregate_rankings (stage2_results : List Stage2Item)
    (label_to_model : List (String × String)) : List AggregateEntry :=
  let model_positions := stage2_results.foldl
    (fun acc r => recordParsed label_to_model (parseRankingStr r.ranking) acc) []
  sortByAvg (model_positions.filterMap (fun mp =>
    if mp.2.isEmpty then none
    else some { model := mp.1,
                average_rank := round2 ((mp.2.sum : ℚ) / (mp.2.length : ℚ)),
                rankings_count := mp.2.length }))

/-- The spec-side occurrence list used to state claim C6: all 1-based
positions, across the evaluators' parses in order, whose label maps to `m`. -/
def specPositions (stage2_results : List Stage2Item)
    (label_to_model : List (String × String)) (m : String) : List Nat :=
  stage2_results.flatMap (fun r =>
    (parseRankingStr r.ranking).enum.filterMap (fun p =>
      if alookup p.2 label_to_model = some m then some (p.1 + 1) else none))

/-- Claim-side count of evaluators whose parse ranks model `m` (used in the
C6 counterexample). -/
def countEvaluatorsRanking (stage2_results : List Stage2Item)
    (label_to_model : List (String × String)) (m : String) : Nat :=
  (stage2_results.filter (fun r =>
    (parseRankingStr r.ranking).any (fun lab =>
      alookup lab label_to_model = some m))).length

/-- The positions recorded so far for model `m` in the positions map (the
reading counterpart of `appendPos`): first matching entry's list, `[]` when
the model has not been seen. -/
def posLookup (m : String) (l : List (String × List Nat)) : List Nat :=
  ((l.find? (fun p => p.1 == m)).map (·.2)).getD []

/-! ## `run_full_council` (council.py lines 804–843) -/

/-- The pipeline-level error result returned when Stage 1 collects nothing. -/
def allModelsFailedResult : Stage3Result :=
  { model := "error",
    response := "All models failed to respond. Please try again." }

/-- Embedding of `run_full_council`: Stage 1, early error return when no
model responded, else Stage 2, aggregate rankings, Stage 3.  The second
component is the full log of gateway calls made. -/
def run_full_council (g : Gateway) (user_query : String) :
    (List Stage1Item × List Stage2Item × Stage3Result × RunMetadata) ×
      List (CallTag × String) :=
  let s1 := stage1_collect_responses g user_query
  if s1.1.isEmpty then
    (([], [], allModelsFailedResult, { label_to_model := [], aggregate_rankings := [] }),
     s1.2.2)
  else
    let s2 := stage2_collect_rankings g user_query s1.1 ""
    let agg := calculate_aggregate_rankings s2.1 s2.2.1
    let s3 := stage3_synthesize_final g user_query s1.1 s2.1 [] none
    ((s1.1, s2.1, s3.1, { label_to_model := s2.2.1, aggregate_rankings := agg }),
     s1.2.2 ++ s2.2.2.2 ++ s3.2.2)

/-! ## Consensus check and debate loop (council.py lines 395–432, 846–916) -/

/-- Increment a model's first-place count, keeping dict insertion order. -/
def bumpCount (m : String) : List (String × Nat) → List (String × Nat)
  | [] => [(m, 1)]
  | (k, n) :: rest =>
    if k == m then (k, n + 1) :: rest
    else (k, n) :: bumpCount m rest

/-- Embedding of `check_consensus`: count, over evaluators with a non-empty
parse whose first choice is a known label, how many put each model first; if
no evaluator counts, no consensus; else the first model (in count-map order)
whose fraction reaches the threshold wins. -/
def check_consensus (threshold : ℚ) (stage2_results : List Stage2Item)
    (label_to_model : List (String × String)) : Bool × Option String :=
  let cz := stage2_results.foldl
    (fun acc r =>
      match r.parsed_ranking with
      | [] => acc
      | first :: _ =>
        match alookup first label_to_model with
        | some model => (bumpCount model acc.1, acc.2 + 1)
        | none => acc)
    ([], 0)
  if cz.2 = 0 then (false, none)
  else
    match cz.1.find? (fun p => threshold ≤ (p.2 : ℚ) / (cz.2 : ℚ)) with
    | some p => (true, some p.1)
    | none => (false, none)

/-- Debate round status strings of run_full_council_tier2. -/
inductive DebateStatus where
  | consensus_reached
  | no_rebuttals
  | rebuttals_collected
  deriving Repr, DecidableEq

/-- One debate-round record. -/
structure DebateRound where
  round : Nat
  status : DebateStatus
  top_model : Option String
  rebuttal_count : Nat
  deriving Repr, DecidableEq

/-- The debate loop body of `run_full_council_tier2` (lines 888–916).  The
loop's inputs never change across rounds: `stage2_results` and
`label_to_model` are not re-solicited, so the consensus check is the same
every round, and `stage2b_collect_rebuttals` is called each round with
identical arguments, so with a deterministic gateway its result is the
constant `rebuttals`.  Returns the round records and the accumulated
rebuttals. -/
def debateLoopGo (threshold : ℚ) (stage2_results : List Stage2Item)
    (label_to_model : List (String × String)) (rebuttals : List Rebuttal) :
    Nat → Nat → List DebateRound × List Rebuttal
  | _, 0 => ([], [])
  | round_num, k + 1 =>
    match check_consensus threshold stage2_results label_to_model with
    | (true, top) =>
      ([{ round := round_num + 1, status := DebateStatus.consensus_reached,
          top_model := top, rebuttal_count := 0 }], [])
    | (false, _) =>
      if rebuttals.isEmpty then
        ([{ round := round_num + 1, status := DebateStatus.no_rebuttals,
            top_model := none, rebuttal_count := 0 }], [])
      else
        (({ round := round_num + 1, status := DebateStatus.rebuttals_collected,
            top_model := none, rebuttal_count := rebuttals.length } : DebateRound)
            :: (debateLoopGo threshold stage2_results label_to_model rebuttals
                (round_num + 1) k).1,
         rebuttals ++ (debateLoopGo threshold stage2_results label_to_model rebuttals
            (round_num + 1) k).2)

/-- The debate loop: `for round_num in range(max_rounds)` starting at 0. -/
def debate_loop (threshold : ℚ) (stage2_results : List Stage2Item)
    (label_to_model : List (String × String)) (rebuttals : List Rebuttal)
    (max_rounds : Nat) : List DebateRound × List Rebuttal :=
  debateLoopGo threshold stage2_results label_to_model rebuttals 0 max_rounds

/-! ### Lemmas about `findSub` and `pySplit` -/

theorem findSub_bound (pat : List Char) :
    ∀ s i, findSub pat s = some i → i + pat.length ≤ s.length := by
  intro s
  induction s with
  | nil =>
    intro i h
    simp only [findSub] at h
    split at h
    · rename_i hp
      rw [List.isPrefixOf_iff_prefix] at hp
      have := hp.length_le
      simp at this
      cases h
      simp [this]
    · cases h
  | cons c t ih =>
    intro i h
    simp only [findSub] at h
    split at h
    · rename_i hp
      rw [List.isPrefixOf_iff_prefix] at hp
      have := hp.length_le
      cases h
      simpa using this
    · rcases Option.map_eq_some'.mp h with ⟨j, hj, rfl⟩
      have := ih j hj
      simp [List.length_cons]
      omega

theorem pySplitGo_ne_nil (sep : List Char) :
    ∀ fuel s, pySplitGo sep fuel s ≠ [] := by
  intro fuel s
  cases fuel with
  | zero => simp [pySplitGo]
  | succ k =>
    simp only [pySplitGo]
    cases findSub sep s <;> simp

theorem pySplitGo_head (sep : List Char) (fuel : Nat) (s : List Char) (h : 0 < fuel) :
    (pySplitGo sep fuel s).head? =
      some (match findSub sep s with | none => s | some j => s.take j) := by
  cases fuel with
  | zero => omega
  | succ k =>
    simp only [pySplitGo]
    cases findSub sep s <;> rfl

/-! ### Claim C1 -/

/-- Claim C1 counterexample: on a verdict containing TWO occurrences of
"FINAL RANKING:", the code parses the section after the FIRST occurrence
(yielding `["Response A"]`), whereas the claimed algorithm — parse after the
LAST occurrence — would yield `["Response B"]`. -/
theorem C1_counterexample :
    parse_ranking_from_text
        "FINAL RANKING:\n1. Response A\nFINAL RANKING:\n1. Response B\n".data
      = ["Response A".data] ∧
    claimedLastHeaderParse
        "FINAL RANKING:\n1. Response A\nFINAL RANKING:\n1. Response B\n".data
      = ["Response B".data] ∧
    parse_ranking_from_text
        "FINAL RANKING:\n1. Response A\nFINAL RANKING:\n1. Response B\n".data
      ≠ claimedLastHeaderParse
        "FINAL RANKING:\n1. Response A\nFINAL RANKING:\n1. Response B\n".data := by
  refine ⟨by decide, by decide, by decide⟩

/-- Claim C1 (amended): for every verdict text, the ranking parser locates the
FIRST occurrence of "FINAL RANKING:" and, within the text after it up to the
next occurrence of the header, first extracts labels matching the strict
"<number>. Response <letter>" pattern in order; if that yields zero matches it
falls back to all "Response <letter>" occurrences in that section in
appearance order; and if the header is absent it scans the entire verdict
text.  The claim's concrete example still parses to
`["Response B", "Response A"]`, and header-less text falls back to
first-appearance order. -/
theorem C1_parse_ranking_spec :
    (∀ t : List Char, parse_ranking_from_text t = amendedRankingParse t) ∧
    parse_ranking_from_text "... FINAL RANKING:\n1. Response B\n2. Response A\n".data
      = ["Response B".data, "Response A".data] ∧
    parse_ranking_from_text "no header here, Response C then Response A".data
      = ["Response C".data, "Response A".data] := by
  refine ⟨?_, by decide, by decide⟩
  intro t
  unfold parse_ranking_from_text amendedRankingParse
  cases h : findSub FINAL_RANKING t with
  | none =>
    simp [containsSub, h]
  | some i =>
    have hcont : containsSub FINAL_RANKING t = true := by simp [containsSub, h]
    rw [if_pos hcont]
    have hbound := findSub_bound FINAL_RANKING t i h
    have hlen : 0 < t.length := by
      simp [FINAL_RANKING] at hbound
      omega
    -- unfold the split once: the first cut is at `i`
    have hsplit : pySplit FINAL_RANKING t
        = t.take i :: pySplitGo FINAL_RANKING t.length (t.drop (i + FINAL_RANKING.length)) := by
      simp only [pySplit, pySplitGo, h]
    -- the second component of the split is the section after the first header
    have htail_ne := pySplitGo_ne_nil FINAL_RANKING t.length (t.drop (i + FINAL_RANKING.length))
    have hhead := pySplitGo_head FINAL_RANKING t.length (t.drop (i + FINAL_RANKING.length)) hlen
    have hlen2 : 2 ≤ (pySplit FINAL_RANKING t).length := by
      rw [hsplit]
      cases hgo : pySplitGo FINAL_RANKING t.length (t.drop (i + FINAL_RANKING.length)) with
      | nil => exact absurd hgo htail_ne
      | cons a l => simp
    rw [if_pos (by exact_mod_cast hlen2)]
    have hsec : (pySplit FINAL_RANKING t).getD 1 [] = sectionAfterFirstHeader t i := by
      rw [hsplit]
      cases hgo : pySplitGo FINAL_RANKING t.length (t.drop (i + FINAL_RANKING.length)) with
      | nil => exact absurd hgo htail_ne
      | cons a l =>
        rw [hgo] at hhead
        simp only [List.head?] at hhead
        simp only [List.getD, List.get?, Option.getD]
        simp only [sectionAfterFirstHeader]
        cases hfs : findSub FINAL_RANKING (t.drop (i + FINAL_RANKING.length)) <;>
          simp [hfs] at hhead <;> simp [hhead]
    rw [hsec]
    cases hn : findallNumbered (sectionAfterFirstHeader t i) with
    | nil => simp
    | cons a l => simp

/-! ### Claim C3 -/

/-- Claim C3: for every query string, `analyze_query_complexity` returns a
score in [0, 1], and (routing enabled, no forced tier) the tier chosen by
`route_query_smart` is the pure function of that score and the two configured
thresholds: below the single threshold gives tier 1, below the full threshold
gives tier 2, otherwise tier 3. -/
theorem C3_score_bounds_and_tier (query : String) (config : SmartRoutingConfig)
    (council : List String) (h : config.enabled = true) :
    0 ≤ (analyze_query_complexity query).score ∧
    (analyze_query_complexity query).score ≤ 1 ∧
    (route_query_smart config council query none).tier =
      tierFromScore (analyze_query_complexity query).score
        config.complexity_threshold_single config.complexity_threshold_full := by
  refine ⟨?_, ?_, ?_⟩
  · show (0 : ℚ) ≤ qmax 0 (qmin 1 (rawComplexityTotal query))
    unfold qmax
    split <;> simp_all
  · show qmax 0 (qmin 1 (rawComplexityTotal query)) ≤ 1
    unfold qmax qmin
    split_ifs <;> linarith
  · unfold route_query_smart
    rw [h]
    rfl

/-- Claim C3 witness: instantiation at the query "What is 2+2?" with the
default configuration. -/
theorem C3_witness :
    0 ≤ (analyze_query_complexity "What is 2+2?").score ∧
    (analyze_query_complexity "What is 2+2?").score ≤ 1 ∧
    (route_query_smart SMART_ROUTING_CONFIG COUNCIL_MODELS "What is 2+2?" none).tier =
      tierFromScore (analyze_query_complexity "What is 2+2?").score
        SMART_ROUTING_CONFIG.complexity_threshold_single
        SMART_ROUTING_CONFIG.complexity_threshold_full :=
  C3_score_bounds_and_tier "What is 2+2?" SMART_ROUTING_CONFIG COUNCIL_MODELS rfl

/-! ### Claim C9 -/

set_option maxRecDepth 8000 in
/-- Claim C9 counterexample: the query "algorithm? database api?" contains two
question marks and three technical terms, yet with default thresholds it
scores 0.5 < 0.7 and is routed to the three-model mini council, not the entire
configured council — refuting the claim's universal second half. -/
theorem C9_counterexample :
    "algorithm? database api?".data.count '?' = 2 ∧
    techCount "algorithm? database api?" = 3 ∧
    (analyze_query_complexity "algorithm? database api?").score = 1/2 ∧
    (analyze_query_complexity "algorithm? database api?").score
      < SMART_ROUTING_CONFIG.complexity_threshold_full ∧
    (route_query_smart SMART_ROUTING_CONFIG COUNCIL_MODELS
        "algorithm? database api?" none).tier = 2 ∧
    (route_query_smart SMART_ROUTING_CONFIG COUNCIL_MODELS
        "algorithm? database api?" none).models ≠ COUNCIL_MODELS := by
  exact ⟨by decide, by decide, by with_unfolding_all decide, by with_unfolding_all decide,
    by with_unfolding_all decide, by with_unfolding_all decide⟩

set_option maxRecDepth 8000 in
/-- Claim C9 (amended): with default thresholds, "What is 2+2?" scores below
the Single-tier threshold and dispatches exactly one model; and SOME queries
containing two distinct question marks and three technical terms score above
the Full-tier threshold and dispatch the entire configured council (witness
below) — but not every such query does. -/
theorem C9_routing_examples :
    ((analyze_query_complexity "What is 2+2?").score
        < SMART_ROUTING_CONFIG.complexity_threshold_single ∧
      (route_query_smart SMART_ROUTING_CONFIG COUNCIL_MODELS
          "What is 2+2?" none).models.length = 1) ∧
    ("First, should I rework the database layout? Also, recommend the best way to ship our api, and explain the deploy steps, second item please?".data.count '?' = 2 ∧
      techCount "First, should I rework the database layout? Also, recommend the best way to ship our api, and explain the deploy steps, second item please?" = 3 ∧
      SMART_ROUTING_CONFIG.complexity_threshold_full ≤
        (analyze_query_complexity "First, should I rework the database layout? Also, recommend the best way to ship our api, and explain the deploy steps, second item please?").score ∧
      (route_query_smart SMART_ROUTING_CONFIG COUNCIL_MODELS
          "First, should I rework the database layout? Also, recommend the best way to ship our api, and explain the deploy steps, second item please?" none).models
        = COUNCIL_MODELS) := by
  exact ⟨⟨by with_unfolding_all decide, by with_unfolding_all decide⟩, by decide, by decide,
    by with_unfolding_all decide, by with_unfolding_all decide⟩

/-! ### Claim C8 -/

set_option maxRecDepth 8000 in
/-- Claim C8 counterexample: on the query "hello there friend?" the freshly
initialised routing model (heuristic initial weights, zero training samples)
predicts tier 2, while the heuristic complexity scorer selects tier 1 — so the
fresh model does NOT always predict the heuristic scorer's tier. -/
theorem C8_counterexample :
    (RoutingModel_predict initialWeights "hello there friend?").tier = 2 ∧
    (analyze_query_complexity "hello there friend?").tier = 1 ∧
    (RoutingModel_predict initialWeights "hello there friend?").tier
      ≠ (analyze_query_complexity "hello there friend?").tier := by
  exact ⟨by with_unfolding_all decide, by with_unfolding_all decide,
    by with_unfolding_all decide⟩

set_option maxRecDepth 8000 in
/-- Claim C8 (amended): the learned routing model with no training data uses
the fixed heuristically-initialised weights, and maps its own linear feature
score through the SAME tier thresholds (0.3 / 0.7) as the heuristic scorer;
the two can agree (e.g. on "What is 2+2?") but do not agree on every query. -/
theorem C8_fresh_model_thresholds :
    (∀ query : String,
      (RoutingModel_predict initialWeights query).tier
        = tierFromScore (mlComplexityScore initialWeights query) 0.3 0.7) ∧
    (∀ query : String,
      (analyze_query_complexity query).tier
        = tierFromScore (analyze_query_complexity query).score 0.3 0.7) ∧
    (RoutingModel_predict initialWeights "What is 2+2?").tier
      = (analyze_query_complexity "What is 2+2?").tier := by
  refine ⟨?_, fun query => rfl, by with_unfolding_all decide⟩
  intro query
  unfold RoutingModel_predict tierFromScore
  split_ifs <;> rfl

/-! ### Claim C4 -/

theorem findBestGo_mem (sim : String → String → ℚ) (thr : ℚ) (query : String) :
    ∀ (l : List (String × CachedResponse)) (score : ℚ)
      (best : Option (String × CachedResponse)) (kv : String × CachedResponse),
      findBestGo sim thr query score best l = some kv → kv ∈ l ∨ best = some kv := by
  intro l
  induction l with
  | nil => intro score best kv h; exact Or.inr h
  | cons x rest ih =>
    intro score best kv h
    unfold findBestGo at h
    split at h
    · rcases ih _ _ _ h with hm | he
      · exact Or.inl (List.mem_cons_of_mem x hm)
      · cases he; exact Or.inl (List.mem_cons_self x rest)
    · rcases ih _ _ _ h with hm | he
      · exact Or.inl (List.mem_cons_of_mem x hm)
      · exact Or.inr he

/-- Claim C4: neither the exact-match lookup `get` nor the similarity scan
`find_similar` ever returns an entry whose age exceeds the configured TTL,
even with no explicit clean: a returned entry always has
`now ≤ created_at + ttl_hours`. -/
theorem C4_expired_never_served :
    (∀ (cfg : SemanticCacheConfig) (now : ℚ) (query : String)
        (c : SemanticCache) (e : CachedResponse),
      (c.get cfg now query).1 = some e → now ≤ e.created_at + cfg.ttl_hours) ∧
    (∀ (cfg : SemanticCacheConfig) (sim : String → String → ℚ) (now : ℚ)
        (query : String) (c : SemanticCache) (e : CachedResponse),
      (c.find_similar cfg sim now query).1 = some e →
      now ≤ e.created_at + cfg.ttl_hours) := by
  constructor
  · intro cfg now query c e h
    unfold SemanticCache.get at h
    cases hl : dictLookup (generate_key query) c.entries with
    | none => rw [hl] at h; simp at h
    | some entry =>
      rw [hl] at h
      by_cases hexp : entry.is_expired cfg.ttl_hours now
      · simp [hexp] at h
      · simp [hexp] at h
        have hlt : ¬(entry.created_at + cfg.ttl_hours < now) := by
          have := hexp
          unfold CachedResponse.is_expired at this
          simpa using this
        rw [← h]
        simp only []
        linarith [not_lt.mp hlt]
  · intro cfg sim now query c e h
    unfold SemanticCache.find_similar at h
    cases hb : findBestGo sim cfg.similarity_threshold query 0 none
        (c.entries.filter (fun kv => !(kv.2.is_expired cfg.ttl_hours now))) with
    | none => rw [hb] at h; simp at h
    | some kv =>
      obtain ⟨k, e0⟩ := kv
      rw [hb] at h
      simp at h
      have hmem := findBestGo_mem sim cfg.similarity_threshold query _ _ _ _ hb
      rcases hmem with hm | he
      · have hkeep := List.of_mem_filter hm
        have hlt : ¬(e0.created_at + cfg.ttl_hours < now) := by
          unfold CachedResponse.is_expired at hkeep
          simpa using hkeep
        rw [← h]
        simp only []
        linarith [not_lt.mp hlt]
      · cases he

/-- Claim C4 witness: on a one-entry cache created at time 0 with the default
24-hour TTL, a lookup at time 1 hits and the served entry's age is within the
TTL. -/
theorem C4_witness :
    (SemanticCache.get demoCache SEMANTIC_CACHE_CONFIG 1 "What is AI?").1
      = some { demoEntry with hit_count := 1 } ∧
    (1 : ℚ) ≤ ({ demoEntry with hit_count := 1 } : CachedResponse).created_at
        + SEMANTIC_CACHE_CONFIG.ttl_hours := by
  have h1 : (SemanticCache.get demoCache SEMANTIC_CACHE_CONFIG 1 "What is AI?").1
      = some { demoEntry with hit_count := 1 } := by with_unfolding_all decide
  exact ⟨h1, C4_expired_never_served.1 SEMANTIC_CACHE_CONFIG 1 "What is AI?" demoCache _ h1⟩

/-! ### Dictionary and sorting lemmas for the cache -/

theorem lookup_map_overwrite (k : String) (v : CachedResponse) :
    ∀ l : List (String × CachedResponse), l.any (fun p => p.1 == k) = true →
      dictLookup k (l.map (fun p => if p.1 == k then (k, v) else p)) = some v := by
  intro l
  induction l with
  | nil => intro h; simp at h
  | cons p t ih =>
    intro h
    simp only [List.map_cons]
    by_cases hp : (p.1 == k) = true
    · rw [if_pos hp]
      unfold dictLookup
      rw [List.find?_cons_of_pos _ (by simp)]
      rfl
    · rw [if_neg hp]
      unfold dictLookup
      rw [List.find?_cons_of_neg _ (by simpa using hp)]
      have ht : t.any (fun p => p.1 == k) = true := by
        rw [List.any_cons] at h
        rcases Bool.or_eq_true_iff.mp h with h1 | h1
        · exact absurd h1 hp
        · exact h1
      exact ih ht

theorem lookup_append_key (k : String) (v : CachedResponse) :
    ∀ l : List (String × CachedResponse), l.any (fun p => p.1 == k) = false →
      dictLookup k (l ++ [(k, v)]) = some v := by
  intro l
  induction l with
  | nil =>
    intro _
    unfold dictLookup
    rw [List.nil_append, List.find?_cons_of_pos _ (by simp)]
    rfl
  | cons p t ih =>
    intro h
    rw [List.any_cons] at h
    have h1 : (p.1 == k) = false := by
      cases hb : (p.1 == k)
      · rfl
      · rw [hb] at h; simp at h
    have h2 : t.any (fun p => p.1 == k) = false := by
      cases hb : t.any (fun p => p.1 == k)
      · rfl
      · rw [hb] at h; simp at h
    unfold dictLookup
    rw [List.cons_append, List.find?_cons_of_neg _ (by simp [h1])]
    exact ih h2

theorem dictInsert_lookup (k : String) (v : CachedResponse)
    (l : List (String × CachedResponse)) :
    dictLookup k (dictInsert k v l) = some v := by
  unfold dictInsert
  cases h : l.any (fun p => p.1 == k) with
  | true => rw [if_pos rfl]; exact lookup_map_overwrite k v l h
  | false =>
    rw [if_neg Bool.false_ne_true]
    exact lookup_append_key k v l h

theorem lookup_filter_doomed (k : String) (doomed : List String)
    (hk : doomed.contains k = false) :
    ∀ l : List (String × CachedResponse),
      dictLookup k (l.filter (fun kv => !(doomed.contains kv.1))) = dictLookup k l := by
  intro l
  induction l with
  | nil => rfl
  | cons p t ih =>
    by_cases hp : (p.1 == k) = true
    · have hpk : p.1 = k := by simpa using hp
      have hkeep : (fun kv : String × CachedResponse => !(doomed.contains kv.1)) p = true := by
        simp only [hpk, hk]; rfl
      unfold dictLookup
      rw [@List.filter_cons_of_pos _ (fun kv : String × CachedResponse =>
          !(doomed.contains kv.1)) p t hkeep,
        @List.find?_cons_of_pos _ (fun r => r.1 == k) p _ hp,
        @List.find?_cons_of_pos _ (fun r => r.1 == k) p _ hp]
    · cases hkeep : (fun kv : String × CachedResponse => !(doomed.contains kv.1)) p with
      | true =>
        unfold dictLookup
        rw [@List.filter_cons_of_pos _ (fun kv : String × CachedResponse =>
            !(doomed.contains kv.1)) p t hkeep,
          List.find?_cons_of_neg _ (by simp [hp]), List.find?_cons_of_neg _ (by simp [hp])]
        exact ih
      | false =>
        unfold dictLookup
        rw [@List.filter_cons_of_neg _ (fun kv : String × CachedResponse =>
            !(doomed.contains kv.1)) p t (by rw [hkeep]; exact Bool.false_ne_true),
          List.find?_cons_of_neg _ (by simp [hp])]
        exact ih

theorem insort_snoc (e kv : String × CachedResponse)
    (hle : kv.2.created_at ≤ e.2.created_at) :
    ∀ ys, insortByCreated kv (ys ++ [e]) = insortByCreated kv ys ++ [e] := by
  intro ys
  induction ys with
  | nil => simp [insortByCreated, hle]
  | cons y t ih =>
    by_cases hy : kv.2.created_at ≤ y.2.created_at
    · simp [insortByCreated, hy]
    · simp [insortByCreated, hy, ih]

theorem sort_snoc (e : String × CachedResponse) :
    ∀ l, (∀ kv ∈ l, kv.2.created_at ≤ e.2.created_at) →
      sortByCreated (l ++ [e]) = sortByCreated l ++ [e] := by
  intro l
  induction l with
  | nil => intro _; rfl
  | cons x t ih =>
    intro hall
    have ih2 := ih (fun kv hm => hall kv (List.mem_cons_of_mem x hm))
    have hx := insort_snoc e x (hall x (List.mem_cons_self x t)) (sortByCreated t)
    simp [sortByCreated, ih2, hx]

theorem insort_length (kv : String × CachedResponse) :
    ∀ ys, (insortByCreated kv ys).length = ys.length + 1 := by
  intro ys
  induction ys with
  | nil => rfl
  | cons y t ih =>
    by_cases hy : kv.2.created_at ≤ y.2.created_at
    · simp [insortByCreated, hy]
    · simp [insortByCreated, hy, ih]

theorem sort_length : ∀ l : List (String × CachedResponse),
    (sortByCreated l).length = l.length := by
  intro l
  induction l with
  | nil => rfl
  | cons x t ih => simp only [sortByCreated, insort_length, ih, List.length_cons]

theorem insort_mem (kv : String × CachedResponse) :
    ∀ ys x, x ∈ insortByCreated kv ys → x = kv ∨ x ∈ ys := by
  intro ys
  induction ys with
  | nil => intro x hx; simp [insortByCreated] at hx; exact Or.inl hx
  | cons y t ih =>
    intro x hx
    by_cases hy : kv.2.created_at ≤ y.2.created_at
    · simp only [insortByCreated, if_pos hy] at hx
      rcases List.mem_cons.mp hx with h | h
      · exact Or.inl h
      · exact Or.inr h
    · simp only [insortByCreated, if_neg hy] at hx
      rcases List.mem_cons.mp hx with h | h
      · exact Or.inr (h ▸ List.mem_cons_self y t)
      · rcases ih x h with h2 | h2
        · exact Or.inl h2
        · exact Or.inr (List.mem_cons_of_mem y h2)

theorem sort_mem : ∀ (l : List (String × CachedResponse)) x,
    x ∈ sortByCreated l → x ∈ l := by
  intro l
  induction l with
  | nil => intro x hx; simp [sortByCreated] at hx
  | cons y t ih =>
    intro x hx
    simp only [sortByCreated] at hx
    rcases insort_mem y _ x hx with h | h
    · exact h ▸ List.mem_cons_self y t
    · exact List.mem_cons_of_mem y (ih x h)

/-! ### Store-then-lookup core lemma -/

theorem set_get_key (cfg : SemanticCacheConfig) (c : SemanticCache)
    (now_s : ℚ) (q : String) (s1 : List Stage1Item) (s2 : List Stage2Item)
    (s3 : Stage3Result) (meta : RunMetadata) (tier : Option Nat)
    (hsize : c.entries.length ≤ cfg.max_cache_size)
    (hmax : 1 ≤ cfg.max_cache_size)
    (hts : ∀ kv ∈ c.entries, kv.2.created_at ≤ now_s) :
    dictLookup (generate_key q) (c.set cfg now_s q s1 s2 s3 meta tier).entries
      = some (CachedResponse.fresh q s1 s2 s3 meta now_s tier) := by
  unfold SemanticCache.set
  cases hany : c.entries.any (fun p => p.1 == generate_key q) with
  | true =>
    have hlen : (dictInsert (generate_key q)
        (CachedResponse.fresh q s1 s2 s3 meta now_s tier) c.entries).length
        = c.entries.length := by
      unfold dictInsert
      rw [if_pos hany, List.length_map]
    unfold enforce_size_limit
    rw [if_neg (by rw [hlen]; omega)]
    exact dictInsert_lookup _ _ _
  | false =>
    have hins : dictInsert (generate_key q)
        (CachedResponse.fresh q s1 s2 s3 meta now_s tier) c.entries
        = c.entries ++ [(generate_key q,
            CachedResponse.fresh q s1 s2 s3 meta now_s tier)] := by
      unfold dictInsert
      rw [if_neg (by rw [hany]; exact Bool.false_ne_true)]
    rw [hins]
    by_cases hfit : c.entries.length + 1 ≤ cfg.max_cache_size
    · unfold enforce_size_limit
      rw [if_neg (by simp only [List.length_append, List.length_cons, List.length_nil]; omega)]
      exact lookup_append_key _ _ _ hany
    · have hlenmax : c.entries.length = cfg.max_cache_size := by omega
      unfold enforce_size_limit
      rw [if_pos (by simp only [List.length_append, List.length_cons, List.length_nil]; omega)]
      have hall : ∀ kv ∈ c.entries, kv.2.created_at ≤
          ((generate_key q, CachedResponse.fresh q s1 s2 s3 meta now_s tier)).2.created_at :=
        fun kv hm => hts kv hm
      have hexcess : (c.entries ++
          [(generate_key q, CachedResponse.fresh q s1 s2 s3 meta now_s tier)]).length
          - cfg.max_cache_size = 1 := by
        simp only [List.length_append, List.length_cons, List.length_nil, hlenmax]
        omega
      have hl_len : 1 ≤ (sortByCreated c.entries).length := by
        rw [sort_length]; omega
      obtain ⟨hd, tl, hsl⟩ : ∃ hd tl, sortByCreated c.entries = hd :: tl := by
        cases hsl : sortByCreated c.entries with
        | nil => rw [hsl] at hl_len; simp at hl_len
        | cons hd tl => exact ⟨hd, tl, rfl⟩
      have hsorted : sortByCreated (c.entries ++
          [(generate_key q, CachedResponse.fresh q s1 s2 s3 meta now_s tier)])
          = (hd :: tl) ++ [(generate_key q,
              CachedResponse.fresh q s1 s2 s3 meta now_s tier)] := by
        rw [sort_snoc _ c.entries hall, hsl]
      have hhd_mem : hd ∈ c.entries := sort_mem _ _ (hsl ▸ List.mem_cons_self hd tl)
      have hhd_ne : (hd.1 == generate_key q) = false := by
        cases hb : (hd.1 == generate_key q)
        · rfl
        · exfalso
          have h2 : c.entries.any (fun p => p.1 == generate_key q) = true :=
            List.any_eq_true.mpr ⟨hd, hhd_mem, hb⟩
          rw [hany] at h2
          exact Bool.false_ne_true h2
      have hcont : ([hd.1].contains (generate_key q)) = false := by
        simp only [List.contains_cons, List.contains_nil, Bool.or_false]
        rw [beq_eq_false_iff_ne] at hhd_ne ⊢
        exact fun hh => hhd_ne hh.symm
      have htake : (((hd :: tl) ++ [(generate_key q,
          CachedResponse.fresh q s1 s2 s3 meta now_s tier)]).take 1).map
          (fun x => x.1) = [hd.1] := rfl
      simp only [hexcess, hsorted, htake]
      rw [lookup_filter_doomed _ _ hcont]
      exact lookup_append_key _ _ _ hany

/-! ### Normalisation lemmas (lower-case and strip commute) -/

theorem toNat_ofNat_valid (n : Nat) (h : n < 55296) : (Char.ofNat n).toNat = n := by
  unfold Char.ofNat
  rw [dif_pos (Or.inl h)]
  rfl

theorem isPySpace_lowerChar (c : Char) : isPySpace (lowerChar c) = isPySpace c := by
  unfold lowerChar
  split
  · rename_i h
    have hv : (Char.ofNat (c.toNat + 32)).toNat = c.toNat + 32 :=
      toNat_ofNat_valid _ (by omega)
    unfold isPySpace
    rw [decide_eq_decide, hv]
    constructor <;> intro <;> omega
  · rfl

theorem dropWhile_lower (s : List Char) :
    (s.map lowerChar).dropWhile isPySpace = (s.dropWhile isPySpace).map lowerChar := by
  induction s with
  | nil => rfl
  | cons c t ih =>
    simp only [List.map_cons, List.dropWhile]
    rw [isPySpace_lowerChar]
    cases hsp : isPySpace c
    · simp
    · simpa using ih

theorem strip_lower_comm (s : List Char) :
    pyStrip (pyLower s) = pyLower (pyStrip s) := by
  unfold pyStrip pyLower
  rw [dropWhile_lower, ← List.map_reverse, dropWhile_lower, ← List.map_reverse]

theorem generate_key_variant (q1 q2 : String)
    (h : pyLower (pyStrip q2.data) = pyLower (pyStrip q1.data)) :
    generate_key q2 = generate_key q1 := by
  unfold generate_key
  rw [strip_lower_comm, strip_lower_comm, h]

/-! ### Store-then-lookup through `get` and `check_cache` -/

theorem set_then_get (cfg : SemanticCacheConfig) (c : SemanticCache)
    (now_s now_l : ℚ) (q ql : String) (s1 : List Stage1Item)
    (s2 : List Stage2Item) (s3 : Stage3Result) (meta : RunMetadata)
    (tier : Option Nat)
    (hkey : generate_key ql = generate_key q)
    (hsize : c.entries.length ≤ cfg.max_cache_size)
    (hmax : 1 ≤ cfg.max_cache_size)
    (hts : ∀ kv ∈ c.entries, kv.2.created_at ≤ now_s)
    (httl : now_l ≤ now_s + cfg.ttl_hours) :
    (SemanticCache.get (c.set cfg now_s q s1 s2 s3 meta tier) cfg now_l ql).1
      = some { CachedResponse.fresh q s1 s2 s3 meta now_s tier with hit_count := 1 } := by
  have hlk := set_get_key cfg c now_s q s1 s2 s3 meta tier hsize hmax hts
  unfold SemanticCache.get
  rw [hkey, hlk]
  have hexp : (CachedResponse.fresh q s1 s2 s3 meta now_s tier).is_expired
      cfg.ttl_hours now_l = false := by
    unfold CachedResponse.is_expired CachedResponse.fresh
    simp only [decide_eq_false_iff_not, not_lt]
    exact httl
  simp [hexp]
  rfl

theorem check_cache_after_set (cfg : SemanticCacheConfig)
    (sim : String → String → ℚ) (c : SemanticCache) (now_s now_l : ℚ)
    (q ql : String) (s1 : List Stage1Item) (s2 : List Stage2Item)
    (s3 : Stage3Result) (meta : RunMetadata) (tier : Option Nat)
    (hen : cfg.enabled = true)
    (hkey : generate_key ql = generate_key q)
    (hsize : c.entries.length ≤ cfg.max_cache_size)
    (hmax : 1 ≤ cfg.max_cache_size)
    (hts : ∀ kv ∈ c.entries, kv.2.created_at ≤ now_s)
    (httl : now_l ≤ now_s + cfg.ttl_hours) :
    (check_cache cfg sim now_l ql (c.set cfg now_s q s1 s2 s3 meta tier)).1
      = some ({ CachedResponse.fresh q s1 s2 s3 meta now_s tier with
                hit_count := 1 }, 1) := by
  have hget := set_then_get cfg c now_s now_l q ql s1 s2 s3 meta tier hkey hsize hmax hts httl
  unfold check_cache
  rw [if_neg (by rw [hen]; simp)]
  have h1 : SemanticCache.get (c.set cfg now_s q s1 s2 s3 meta tier) cfg now_l ql
      = (some { CachedResponse.fresh q s1 s2 s3 meta now_s tier with hit_count := 1 },
         (SemanticCache.get (c.set cfg now_s q s1 s2 s3 meta tier) cfg now_l ql).2) := by
    rw [← hget]
  rw [h1]

/-! ### Claim C7 -/

/-- Claim C7: with caching enabled, storing a response for a query and then
looking the identical query up within the TTL window returns the stored entry
(hit count bumped) with the same Stage-3 content and a reported similarity of
exactly 1.0.  Side conditions: the cache respects its own invariants (size at
most the configured maximum, existing timestamps not in the future) and the
maximum size is at least one. -/
theorem C7_store_then_lookup (cfg : SemanticCacheConfig)
    (sim : String → String → ℚ) (c : SemanticCache) (now_s now_l : ℚ)
    (query : String) (s1 : List Stage1Item) (s2 : List Stage2Item)
    (s3 : Stage3Result) (meta : RunMetadata) (tier : Option Nat)
    (hen : cfg.enabled = true)
    (hsize : c.entries.length ≤ cfg.max_cache_size)
    (hmax : 1 ≤ cfg.max_cache_size)
    (hts : ∀ kv ∈ c.entries, kv.2.created_at ≤ now_s)
    (httl : now_l ≤ now_s + cfg.ttl_hours) :
    (check_cache cfg sim now_l query (c.set cfg now_s query s1 s2 s3 meta tier)).1
      = some ({ CachedResponse.fresh query s1 s2 s3 meta now_s tier with
                hit_count := 1 }, 1) ∧
    ({ CachedResponse.fresh query s1 s2 s3 meta now_s tier with
       hit_count := 1 } : CachedResponse).stage3_result = s3 :=
  ⟨check_cache_after_set cfg sim c now_s now_l query query s1 s2 s3 meta tier
      hen rfl hsize hmax hts httl, rfl⟩

/-- Claim C7 witness: storing on an empty cache at time 0 and looking up the
identical query at time 1 (default 24-hour TTL) yields the stored Stage-3
content with similarity exactly 1. -/
theorem C7_witness :
    (check_cache SEMANTIC_CACHE_CONFIG (fun _ _ => 0) 1 "What is AI?"
        (SemanticCache.set ⟨[]⟩ SEMANTIC_CACHE_CONFIG 0 "What is AI?"
          [{ model := "m1", response := "r1" }] []
          { model := "chair", response := "final answer" }
          { label_to_model := [], aggregate_rankings := [] } (some 3))).1
      = some ({ CachedResponse.fresh "What is AI?"
            [{ model := "m1", response := "r1" }] []
            { model := "chair", response := "final answer" }
            { label_to_model := [], aggregate_rankings := [] } 0 (some 3) with
            hit_count := 1 }, 1) ∧
    ({ CachedResponse.fresh "What is AI?"
        [{ model := "m1", response := "r1" }] []
        { model := "chair", response := "final answer" }
        { label_to_model := [], aggregate_rankings := [] } 0 (some 3) with
        hit_count := 1 } : CachedResponse).stage3_result
      = { model := "chair", response := "final answer" } :=
  C7_store_then_lookup SEMANTIC_CACHE_CONFIG (fun _ _ => 0) ⟨[]⟩ 0 1 "What is AI?"
    [{ model := "m1", response := "r1" }] []
    { model := "chair", response := "final answer" }
    { label_to_model := [], aggregate_rankings := [] } (some 3)
    rfl (by decide) (by decide) (by simp) (by with_unfolding_all decide)

/-! ### Claim C10 -/

/-- Claim C10: cache keys are derived from the lower-cased,
whitespace-stripped query text, so an exact-match lookup with a variant of a
stored query differing only in letter case or in leading/trailing whitespace
(formally: the stripped texts are equal after lower-casing) returns the same
stored entry within the TTL and is treated as an exact hit with similarity
exactly 1.0. -/
theorem C10_key_normalisation (cfg : SemanticCacheConfig)
    (sim : String → String → ℚ) (c : SemanticCache) (now_s now_l : ℚ)
    (q1 q2 : String) (s1 : List Stage1Item) (s2 : List Stage2Item)
    (s3 : Stage3Result) (meta : RunMetadata) (tier : Option Nat)
    (hen : cfg.enabled = true)
    (hvar : pyLower (pyStrip q2.data) = pyLower (pyStrip q1.data))
    (hsize : c.entries.length ≤ cfg.max_cache_size)
    (hmax : 1 ≤ cfg.max_cache_size)
    (hts : ∀ kv ∈ c.entries, kv.2.created_at ≤ now_s)
    (httl : now_l ≤ now_s + cfg.ttl_hours) :
    (SemanticCache.get (c.set cfg now_s q1 s1 s2 s3 meta tier) cfg now_l q2).1
      = some { CachedResponse.fresh q1 s1 s2 s3 meta now_s tier with
               hit_count := 1 } ∧
    (check_cache cfg sim now_l q2 (c.set cfg now_s q1 s1 s2 s3 meta tier)).1
      = some ({ CachedResponse.fresh q1 s1 s2 s3 meta now_s tier with
                hit_count := 1 }, 1) ∧
    ({ CachedResponse.fresh q1 s1 s2 s3 meta now_s tier with
       hit_count := 1 } : CachedResponse).query = q1 :=
  ⟨set_then_get cfg c now_s now_l q1 q2 s1 s2 s3 meta tier
      (generate_key_variant q1 q2 hvar) hsize hmax hts httl,
   check_cache_after_set cfg sim c now_s now_l q1 q2 s1 s2 s3 meta tier hen
      (generate_key_variant q1 q2 hvar) hsize hmax hts httl, rfl⟩

/-- Claim C10 witness: after storing "What is AI?", the variant
"  WHAT IS ai?\n" (same text up to case and surrounding whitespace) hits the
same entry as an exact match. -/
theorem C10_witness :
    (SemanticCache.get (SemanticCache.set ⟨[]⟩ SEMANTIC_CACHE_CONFIG 0
          "What is AI?" [] [] { model := "chair", response := "final answer" }
          { label_to_model := [], aggregate_rankings := [] } none)
        SEMANTIC_CACHE_CONFIG 1 "  WHAT IS ai?\n").1
      = some { CachedResponse.fresh "What is AI?" [] []
            { model := "chair", response := "final answer" }
            { label_to_model := [], aggregate_rankings := [] } 0 none with
            hit_count := 1 } ∧
    (check_cache SEMANTIC_CACHE_CONFIG (fun _ _ => 0) 1 "  WHAT IS ai?\n"
        (SemanticCache.set ⟨[]⟩ SEMANTIC_CACHE_CONFIG 0 "What is AI?" [] []
          { model := "chair", response := "final answer" }
          { label_to_model := [], aggregate_rankings := [] } none)).1
      = some ({ CachedResponse.fresh "What is AI?" [] []
            { model := "chair", response := "final answer" }
            { label_to_model := [], aggregate_rankings := [] } 0 none with
            hit_count := 1 }, 1) ∧
    ({ CachedResponse.fresh "What is AI?" [] []
        { model := "chair", response := "final answer" }
        { label_to_model := [], aggregate_rankings := [] } 0 none with
        hit_count := 1 } : CachedResponse).query = "What is AI?" :=
  C10_key_normalisation SEMANTIC_CACHE_CONFIG (fun _ _ => 0) ⟨[]⟩ 0 1
    "What is AI?" "  WHAT IS ai?\n" [] []
    { model := "chair", response := "final answer" }
    { label_to_model := [], aggregate_rankings := [] } none
    rfl (by decide) (by decide) (by decide) (by simp) (by with_unfolding_all decide)

/-! ### Claim C2 -/

/-- Claim C2: if Stage 1 produces zero successful responses (every council
model's gateway call fails), `run_full_council` returns the pipeline-level
"All models failed" error result and neither Stage 2 nor Stage 3 issues any
gateway call — the call log holds Stage-1 calls only. -/
theorem C2_total_failure (g : Gateway) (user_query : String)
    (h : ∀ m ∈ COUNCIL_MODELS, g m user_query = none) :
    (run_full_council g user_query).1
      = ([], [], allModelsFailedResult,
         { label_to_model := [], aggregate_rankings := [] }) ∧
    ∀ call ∈ (run_full_council g user_query).2, call.1 = CallTag.stage1 := by
  have hempty : (stage1_collect_responses g user_query).1 = [] := by
    unfold stage1_collect_responses query_models_parallel
    simp only []
    rw [List.filterMap_eq_nil_iff]
    intro a ha
    rcases List.mem_map.mp ha with ⟨m, hm, rfl⟩
    rw [h m hm]
    rfl
  constructor
  · simp only [run_full_council, hempty, List.isEmpty_nil, if_true]
  · intro call hc
    simp only [run_full_council, hempty, List.isEmpty_nil, if_true] at hc
    have hlog : (stage1_collect_responses g user_query).2.2
        = COUNCIL_MODELS.map (fun m => (CallTag.stage1, m)) := rfl
    rw [hlog] at hc
    rcases List.mem_map.mp hc with ⟨m, _, rfl⟩
    rfl

/-- Claim C2 witness: with a gateway that fails every call, the pipeline
returns the error result and the call log holds exactly the four Stage-1
calls. -/
theorem C2_witness :
    (run_full_council (fun _ _ => none) "Hi").1
      = ([], [], allModelsFailedResult,
         { label_to_model := [], aggregate_rankings := [] }) ∧
    (run_full_council (fun _ _ => none) "Hi").2
      = [(CallTag.stage1, "openai/gpt-5.1"),
         (CallTag.stage1, "google/gemini-3-pro-preview"),
         (CallTag.stage1, "anthropic/claude-sonnet-4.5"),
         (CallTag.stage1, "x-ai/grok-4")] :=
  ⟨(C2_total_failure (fun _ _ => none) "Hi" (fun _ _ => rfl)).1, by decide⟩

/-! ### Claim C5 -/

theorem debateLoopGo_spec (threshold : ℚ) (stage2 : List Stage2Item)
    (l2m : List (String × String)) (rebs : List Rebuttal) :
    ∀ (k rn : Nat), debateLoopGo threshold stage2 l2m rebs rn k =
      if k = 0 then ([], [])
      else if (check_consensus threshold stage2 l2m).1 then
        ([{ round := rn + 1, status := DebateStatus.consensus_reached,
            top_model := (check_consensus threshold stage2 l2m).2,
            rebuttal_count := 0 }], [])
      else if rebs.isEmpty then
        ([{ round := rn + 1, status := DebateStatus.no_rebuttals,
            top_model := none, rebuttal_count := 0 }], [])
      else
        ((List.range k).map (fun i =>
          { round := rn + i + 1, status := DebateStatus.rebuttals_collected,
            top_model := none, rebuttal_count := rebs.length }),
         (List.replicate k rebs).flatten) := by
  intro k
  induction k with
  | zero => intro rn; rfl
  | succ n ih =>
    intro rn
    rw [show debateLoopGo threshold stage2 l2m rebs rn (n + 1)
        = match check_consensus threshold stage2 l2m with
          | (true, top) =>
            ([{ round := rn + 1, status := DebateStatus.consensus_reached,
                top_model := top, rebuttal_count := 0 }], [])
          | (false, _) =>
            if rebs.isEmpty then
              ([{ round := rn + 1, status := DebateStatus.no_rebuttals,
                  top_model := none, rebuttal_count := 0 }], [])
            else
              (({ round := rn + 1, status := DebateStatus.rebuttals_collected,
                  top_model := none, rebuttal_count := rebs.length } : DebateRound)
                  :: (debateLoopGo threshold stage2 l2m rebs (rn + 1) n).1,
               rebs ++ (debateLoopGo threshold stage2 l2m rebs (rn + 1) n).2)
        from rfl]
    rcases hc : check_consensus threshold stage2 l2m with ⟨b, top⟩
    cases b with
    | true => simp [hc]
    | false =>
      cases hre : rebs.isEmpty with
      | true => simp [hc, hre]
      | false =>
        rw [ih (rn + 1)]
        by_cases hn : n = 0
        · subst hn
          simp [hc, hre, List.range_succ, List.replicate_succ]
        · simp only [hn, if_false, hc, hre, Bool.false_eq_true, Nat.succ_ne_zero,
            Prod.mk.injEq]
          constructor
          · rw [List.range_succ_eq_map]
            simp only [List.map_cons, List.map_map, List.cons.injEq]
            constructor
            · simp
            · apply List.map_congr_left
              intro i _
              have h3 : rn + 1 + i + 1 = rn + (i + 1) + 1 := by omega
              simp [Function.comp, h3]
          · rw [List.replicate_succ]
            rfl

/-- Claim C5: the debate loop of `run_full_council_tier2` executes at most
`max_rounds` rounds; every round except possibly the last collects rebuttals;
a round whose consensus check succeeds ends the loop as the only round, with
consensus-reached status; and a round in which no model produced a rebuttal
ends it with the no-rebuttals status.  (The loop's inputs are constant across
rounds, so the terminating conditions can only fire in round 1.) -/
theorem C5_debate_loop_bounds (threshold : ℚ) (stage2 : List Stage2Item)
    (l2m : List (String × String)) (rebs : List Rebuttal) (max_rounds : Nat) :
    (debate_loop threshold stage2 l2m rebs max_rounds).1.length ≤ max_rounds ∧
    (∀ r ∈ (debate_loop threshold stage2 l2m rebs max_rounds).1.dropLast,
      r.status = DebateStatus.rebuttals_collected) ∧
    ((check_consensus threshold stage2 l2m).1 = true → 1 ≤ max_rounds →
      (debate_loop threshold stage2 l2m rebs max_rounds).1
        = [{ round := 1, status := DebateStatus.consensus_reached,
             top_model := (check_consensus threshold stage2 l2m).2,
             rebuttal_count := 0 }]) ∧
    ((check_consensus threshold stage2 l2m).1 = false → rebs = [] →
      1 ≤ max_rounds →
      (debate_loop threshold stage2 l2m rebs max_rounds).1
        = [{ round := 1, status := DebateStatus.no_rebuttals,
             top_model := none, rebuttal_count := 0 }]) := by
  unfold debate_loop
  rw [debateLoopGo_spec]
  refine ⟨?_, ?_, ?_, ?_⟩
  · split_ifs <;> simp <;> omega
  · intro r hr
    split_ifs at hr with h0 h1 h2
    · simp at hr
    · simp at hr
    · simp at hr
    · rcases List.mem_map.mp (List.dropLast_subset _ hr) with ⟨i, _, rfl⟩
      rfl
  · intro hc hm
    have h0 : ¬(max_rounds = 0) := by omega
    simp [h0, hc]
  · intro hc hre hm
    have h0 : ¬(max_rounds = 0) := by omega
    simp [h0, hc, hre]

/-- Claim C5 witness: with two evaluators unanimously ranking Response A
(model m1) first and threshold 0.8, a three-round debate stops after one
consensus-reached round; and with no consensus and no rebuttals it stops
after one no-rebuttals round. -/
theorem C5_witness :
    (debate_loop 0.8
        [{ model := "e1", ranking := "", parsed_ranking := ["Response A"] },
         { model := "e2", ranking := "", parsed_ranking := ["Response A"] }]
        [("Response A", "m1")] [] 3).1
      = [{ round := 1, status := DebateStatus.consensus_reached,
           top_model := some "m1", rebuttal_count := 0 }] ∧
    (debate_loop 0.8 [] [] [] 3).1
      = [{ round := 1, status := DebateStatus.no_rebuttals,
           top_model := none, rebuttal_count := 0 }] := by
  constructor
  · have h := (C5_debate_loop_bounds 0.8
        [{ model := "e1", ranking := "", parsed_ranking := ["Response A"] },
         { model := "e2", ranking := "", parsed_ranking := ["Response A"] }]
        [("Response A", "m1")] [] 3).2.2.1
        (by with_unfolding_all decide) (by decide)
    rw [h]
    with_unfolding_all decide
  · exact (C5_debate_loop_bounds 0.8 [] [] [] 3).2.2.2 (by decide) rfl (by decide)

/-! ### Lemmas for the aggregate-ranking computation (claim C6) -/

theorem posLookup_cons_eq (m m0 : String) (ps : List Nat)
    (l : List (String × List Nat)) (h : (m0 == m) = true) :
    posLookup m ((m0, ps) :: l) = ps := by
  simp [posLookup, List.find?, h]

theorem posLookup_cons_ne (m m0 : String) (ps : List Nat)
    (l : List (String × List Nat)) (h : (m0 == m) = false) :
    posLookup m ((m0, ps) :: l) = posLookup m l := by
  simp [posLookup, List.find?, h]

theorem posLookup_appendPos_same (m : String) (p : Nat)
    (l : List (String × List Nat)) :
    posLookup m (appendPos m p l) = posLookup m l ++ [p] := by
  induction l with
  | nil => simp [posLookup, appendPos, List.find?]
  | cons hd tl ih =>
    rcases hd with ⟨m0, ps⟩
    simp only [appendPos]
    cases hb : (m0 == m) with
    | true =>
      rw [if_pos rfl, posLookup_cons_eq m m0 _ _ hb,
        posLookup_cons_eq m m0 _ _ hb]
    | false =>
      rw [if_neg Bool.false_ne_true, posLookup_cons_ne m m0 _ _ hb,
        posLookup_cons_ne m m0 _ _ hb, ih]

theorem posLookup_appendPos_ne (m mp : String) (hne : mp ≠ m) (p : Nat)
    (l : List (String × List Nat)) :
    posLookup m (appendPos mp p l) = posLookup m l := by
  have hbne : (mp == m) = false := by
    cases hb : (mp == m) with
    | true => exact absurd (eq_of_beq hb) hne
    | false => rfl
  induction l with
  | nil =>
    simp [posLookup, appendPos, List.find?, hbne]
  | cons hd tl ih =>
    rcases hd with ⟨m0, ps⟩
    simp only [appendPos]
    cases hb : (m0 == mp) with
    | true =>
      have h0 : (m0 == m) = false := by
        rw [eq_of_beq hb]; exact hbne
      rw [if_pos rfl, posLookup_cons_ne m m0 _ _ h0,
        posLookup_cons_ne m m0 _ _ h0]
    | false =>
      cases h0 : (m0 == m) with
      | true =>
        rw [if_neg Bool.false_ne_true, posLookup_cons_eq m m0 _ _ h0,
          posLookup_cons_eq m m0 _ _ h0]
      | false =>
        rw [if_neg Bool.false_ne_true, posLookup_cons_ne m m0 _ _ h0,
          posLookup_cons_ne m m0 _ _ h0, ih]

theorem keys_appendPos_mem (m : String) (p : Nat)
    (l : List (String × List Nat)) (x : String)
    (hx : x ∈ (appendPos m p l).map Prod.fst) :
    x ∈ l.map Prod.fst ∨ x = m := by
  induction l with
  | nil =>
    simp [appendPos] at hx
    exact Or.inr hx
  | cons hd tl ih =>
    rcases hd with ⟨m0, ps⟩
    simp only [appendPos] at hx
    cases hb : (m0 == m) with
    | true =>
      rw [if_pos (by rw [hb])] at hx
      simp at hx
      rcases hx with h | h
      · exact Or.inl (by simp [h])
      · exact Or.inl (by simp; exact Or.inr (by simpa using h))
    | false =>
      rw [if_neg (by rw [hb]; exact Bool.false_ne_true)] at hx
      simp at hx
      rcases hx with h | h
      · exact Or.inl (by simp [h])
      · rcases ih (by simpa using h) with h2 | h2
        · exact Or.inl (by simp at h2 ⊢; exact Or.inr h2)
        · exact Or.inr h2

theorem nodup_keys_appendPos (m : String) (p : Nat)
    (l : List (String × List Nat)) (hl : (l.map Prod.fst).Nodup) :
    ((appendPos m p l).map Prod.fst).Nodup := by
  induction l with
  | nil => simp [appendPos]
  | cons hd tl ih =>
    rcases hd with ⟨m0, ps⟩
    simp only [appendPos]
    rw [List.map_cons] at hl
    rcases List.nodup_cons.mp hl with ⟨hnotin, htl⟩
    cases hb : (m0 == m) with
    | true =>
      rw [if_pos rfl]
      rw [List.map_cons, List.nodup_cons]
      exact ⟨hnotin, htl⟩
    | false =>
      rw [if_neg Bool.false_ne_true]
      rw [List.map_cons, List.nodup_cons]
      refine ⟨?_, ih htl⟩
      intro hmem
      rcases keys_appendPos_mem m p tl m0 hmem with h | h
      · exact hnotin h
      · rw [h] at hb
        simp at hb

theorem posLookup_fold_enum (l2m : List (String × String)) (m : String)
    (ps : List (Nat × String)) :
    ∀ acc : List (String × List Nat),
      posLookup m (ps.foldl
        (fun acc p =>
          match alookup p.2 l2m with
          | some model => appendPos model (p.1 + 1) acc
          | none => acc) acc)
        = posLookup m acc ++ ps.filterMap (fun p =>
            if alookup p.2 l2m = some m then some (p.1 + 1) else none) := by
  induction ps with
  | nil => intro acc; simp
  | cons p rest ih =>
    intro acc
    simp only [List.foldl_cons]
    rw [ih]
    simp only [List.filterMap_cons]
    cases hl : alookup p.2 l2m with
    | none =>
      have hcond : ¬ (none : Option String) = some m := by
        intro h; exact Option.noConfusion h
      rw [if_neg hcond]
    | some model =>
      by_cases hm : model = m
      · subst hm
        rw [if_pos rfl, posLookup_appendPos_same, List.append_assoc]
        rfl
      · have hcond : ¬ some model = some m := by
          intro h; exact hm (Option.some.injEq model m ▸ h)
        rw [if_neg hcond, posLookup_appendPos_ne m model hm]

theorem posLookup_recordParsed (l2m : List (String × String)) (m : String)
    (parsed : List String) (acc : List (String × List Nat)) :
    posLookup m (recordParsed l2m parsed acc)
      = posLookup m acc ++ parsed.enum.filterMap (fun p =>
          if alookup p.2 l2m = some m then some (p.1 + 1) else none) := by
  unfold recordParsed
  exact posLookup_fold_enum l2m m parsed.enum acc

theorem posLookup_stage2_fold (l2m : List (String × String)) (m : String)
    (s : List Stage2Item) :
    ∀ acc : List (String × List Nat),
      posLookup m (s.foldl
        (fun acc r => recordParsed l2m (parseRankingStr r.ranking) acc) acc)
        = posLookup m acc ++ specPositions s l2m m := by
  induction s with
  | nil => intro acc; simp [specPositions]
  | cons r rest ih =>
    intro acc
    simp only [List.foldl_cons]
    rw [ih, posLookup_recordParsed, List.append_assoc]
    simp [specPositions]

theorem nodup_keys_fold_enum (l2m : List (String × String))
    (ps : List (Nat × String)) :
    ∀ acc : List (String × List Nat), (acc.map Prod.fst).Nodup →
      (((ps.foldl
        (fun acc p =>
          match alookup p.2 l2m with
          | some model => appendPos model (p.1 + 1) acc
          | none => acc) acc)).map Prod.fst).Nodup := by
  induction ps with
  | nil => intro acc h; exact h
  | cons p rest ih =>
    intro acc h
    simp only [List.foldl_cons]
    apply ih
    cases hl : alookup p.2 l2m with
    | none => exact h
    | some model => exact nodup_keys_appendPos model (p.1 + 1) acc h

theorem nodup_keys_recordParsed (l2m : List (String × String))
    (parsed : List String) (acc : List (String × List Nat))
    (h : (acc.map Prod.fst).Nodup) :
    ((recordParsed l2m parsed acc).map Prod.fst).Nodup := by
  unfold recordParsed
  exact nodup_keys_fold_enum l2m parsed.enum acc h

theorem nodup_keys_stage2_fold (l2m : List (String × String))
    (s : List Stage2Item) :
    ∀ acc : List (String × List Nat), (acc.map Prod.fst).Nodup →
      ((s.foldl
        (fun acc r => recordParsed l2m (parseRankingStr r.ranking) acc)
        acc).map Prod.fst).Nodup := by
  induction s with
  | nil => intro acc h; exact h
  | cons r rest ih =>
    intro acc h
    simp only [List.foldl_cons]
    exact ih _ (nodup_keys_recordParsed l2m _ acc h)

theorem posLookup_of_mem (m : String) (ps : List Nat)
    (l : List (String × List Nat)) (hmem : (m, ps) ∈ l)
    (hnd : (l.map Prod.fst).Nodup) :
    posLookup m l = ps := by
  induction l with
  | nil => cases hmem
  | cons hd tl ih =>
    rcases hd with ⟨m0, qs⟩
    rcases List.mem_cons.mp hmem with h | h
    · have hm : m0 = m := congrArg Prod.fst h.symm
      have hq : qs = ps := congrArg Prod.snd h.symm
      rw [posLookup_cons_eq m m0 qs tl (by rw [hm]; exact beq_self_eq_true m), hq]
    · rw [List.map_cons] at hnd
      rcases List.nodup_cons.mp hnd with ⟨hnotin, htl⟩
      have hne : (m0 == m) = false := by
        cases hb : (m0 == m) with
        | true =>
          exfalso
          apply hnotin
          rw [eq_of_beq hb]
          exact List.mem_map.mpr ⟨(m, ps), h, rfl⟩
        | false => rfl
      rw [posLookup_cons_ne m m0 qs tl hne]
      exact ih h htl

theorem mem_insortByAvg (x e : AggregateEntry) (l : List AggregateEntry) :
    x ∈ insortByAvg e l ↔ x = e ∨ x ∈ l := by
  induction l with
  | nil => simp [insortByAvg]
  | cons y ys ih =>
    simp only [insortByAvg]
    by_cases h : e.average_rank ≤ y.average_rank
    · rw [if_pos h]
      simp [List.mem_cons]
    · rw [if_neg h]
      simp only [List.mem_cons, ih]
      tauto

theorem mem_sortByAvg (x : AggregateEntry) (l : List AggregateEntry) :
    x ∈ sortByAvg l ↔ x ∈ l := by
  induction l with
  | nil => simp [sortByAvg]
  | cons y ys ih =>
    simp only [sortByAvg]
    rw [mem_insortByAvg, ih, List.mem_cons]

theorem pairwise_insortByAvg (e : AggregateEntry) (l : List AggregateEntry)
    (hl : l.Pairwise (fun a b => a.average_rank ≤ b.average_rank)) :
    (insortByAvg e l).Pairwise (fun a b => a.average_rank ≤ b.average_rank) := by
  induction l with
  | nil => simp [insortByAvg]
  | cons y ys ih =>
    rcases List.pairwise_cons.mp hl with ⟨hy, hys⟩
    simp only [insortByAvg]
    by_cases h : e.average_rank ≤ y.average_rank
    · rw [if_pos h]
      refine List.pairwise_cons.mpr ⟨?_, hl⟩
      intro z hz
      rcases List.mem_cons.mp hz with hz | hz
      · rw [hz]; exact h
      · exact le_trans h (hy z hz)
    · rw [if_neg h]
      refine List.pairwise_cons.mpr ⟨?_, ih hys⟩
      intro z hz
      rcases (mem_insortByAvg z e ys).mp hz with hz | hz
      · rw [hz]; exact le_of_lt (lt_of_not_le h)
      · exact hy z hz

theorem pairwise_sortByAvg (l : List AggregateEntry) :
    (sortByAvg l).Pairwise (fun a b => a.average_rank ≤ b.average_rank) := by
  induction l with
  | nil => simp [sortByAvg]
  | cons y ys ih =>
    simp only [sortByAvg]
    exact pairwise_insortByAvg y (sortByAvg ys) ih

/-- **C6** (corrected).  Each entry of `calculate_aggregate_rankings` has
`rankings_count` equal to the number of label *occurrences* across all
evaluators' parsed rankings that map to that model (an evaluator repeating a
label contributes once per occurrence, not once per evaluator), its
`average_rank` is the mean of the corresponding 1-based positions rounded to
two decimals, a model appears in the output iff some occurrence maps to it,
and the output is sorted ascending by `average_rank`. -/
theorem C6_aggregate_spec (s : List Stage2Item) (l2m : List (String × String)) :
    (∀ e ∈ calculate_aggregate_rankings s l2m,
        specPositions s l2m e.model ≠ [] ∧
        e.rankings_count = (specPositions s l2m e.model).length ∧
        e.average_rank =
          round2 (((specPositions s l2m e.model).sum : ℚ)
            / ((specPositions s l2m e.model).length : ℚ))) ∧
    (∀ m : String, specPositions s l2m m ≠ [] →
        ∃ e ∈ calculate_aggregate_rankings s l2m, e.model = m) ∧
    (calculate_aggregate_rankings s l2m).Pairwise
      (fun a b => a.average_rank ≤ b.average_rank) := by
  set F := s.foldl
    (fun acc r => recordParsed l2m (parseRankingStr r.ranking) acc) [] with hF
  have hnd : (F.map Prod.fst).Nodup := by
    rw [hF]
    exact nodup_keys_stage2_fold l2m s [] (by simp)
  have hpl : ∀ m : String, posLookup m F = specPositions s l2m m := by
    intro m
    rw [hF, posLookup_stage2_fold l2m m s []]
    rfl
  have hunf : calculate_aggregate_rankings s l2m
      = sortByAvg (F.filterMap (fun mp =>
          if mp.2.isEmpty then none
          else some { model := mp.1,
                      average_rank := round2 ((mp.2.sum : ℚ) / (mp.2.length : ℚ)),
                      rankings_count := mp.2.length })) := rfl
  refine ⟨?_, ?_, ?_⟩
  · intro e he
    rw [hunf, mem_sortByAvg] at he
    rcases List.mem_filterMap.mp he with ⟨⟨m0, ps0⟩, hmem, hsome⟩
    by_cases hemp : (ps0.isEmpty : Bool) = true
    · rw [if_pos hemp] at hsome
      exact Option.noConfusion hsome
    · rw [if_neg hemp] at hsome
      have he2 := (Option.some.injEq _ _).mp hsome
      have hps : posLookup m0 F = ps0 := posLookup_of_mem m0 ps0 F hmem hnd
      have hspec : specPositions s l2m m0 = ps0 := by rw [← hpl m0, hps]
      rw [← he2]
      refine ⟨?_, ?_, ?_⟩
      · show specPositions s l2m m0 ≠ []
        rw [hspec]
        intro h
        exact hemp (by simp [h])
      · show ps0.length = (specPositions s l2m m0).length
        rw [hspec]
      · show round2 ((ps0.sum : ℚ) / (ps0.length : ℚ))
          = round2 (((specPositions s l2m m0).sum : ℚ)
              / ((specPositions s l2m m0).length : ℚ))
        rw [hspec]
  · intro m hm
    rw [← hpl m] at hm
    cases hf : F.find? (fun p => p.1 == m) with
    | none =>
      exfalso
      apply hm
      simp [posLookup, hf]
    | some kv =>
      rcases kv with ⟨k, v⟩
      have hk : k = m := eq_of_beq (by simpa using List.find?_some hf)
      have hv : posLookup m F = v := by simp [posLookup, hf]
      have hvne : v ≠ [] := by rw [← hv]; exact hm
      have hmem : (k, v) ∈ F := List.mem_of_find?_eq_some hf
      refine ⟨{ model := k,
                average_rank := round2 ((v.sum : ℚ) / (v.length : ℚ)),
                rankings_count := v.length }, ?_, hk⟩
      rw [hunf, mem_sortByAvg]
      apply List.mem_filterMap.mpr
      refine ⟨(k, v), hmem, ?_⟩
      rw [if_neg (fun h => hvne (by simpa using h))]
  · rw [hunf]
    exact pairwise_sortByAvg _

set_option maxRecDepth 8000 in
/-- **C6** counterexample.  The claim says `rankings_count` equals the number
of *evaluators* who ranked the model, but the code records one count per label
occurrence: a single evaluator whose verdict mentions "Response A" twice (with
no "FINAL RANKING:" header, so the fallback scanner collects both occurrences)
yields `rankings_count = 2` while only one evaluator ranked the model. -/
theorem C6_counterexample :
    ((calculate_aggregate_rankings
        [{ model := "e1", ranking := "Response A and Response A",
           parsed_ranking := [] }]
        [("Response A", "X")]).map
      (fun e => (e.model, e.rankings_count))
      = [("X", 2)]) ∧
    countEvaluatorsRanking
        [{ model := "e1", ranking := "Response A and Response A",
           parsed_ranking := [] }]
        [("Response A", "X")] "X" = 1 ∧ (2 : Nat) ≠ 1 := by
  refine ⟨by with_unfolding_all decide, by with_unfolding_all decide, by decide⟩

set_option maxRecDepth 8000 in
/-- Witness for C6: instantiating `C6_aggregate_spec` on a concrete run with
one evaluator ranking two labelled models, the model mapped from the
second-ranked label does appear in the aggregate output. -/
theorem C6_witness :
    specPositions
        [{ model := "e1",
           ranking := "FINAL RANKING:\n1. Response A\n2. Response B",
           parsed_ranking := [] }]
        [("Response A", "m1"), ("Response B", "m2")] "m2" ≠ [] ∧
    ∃ e ∈ calculate_aggregate_rankings
        [{ model := "e1",
           ranking := "FINAL RANKING:\n1. Response A\n2. Response B",
           parsed_ranking := [] }]
        [("Response A", "m1"), ("Response B", "m2")], e.model = "m2" := by
  refine ⟨by with_unfolding_all decide, ?_⟩
  exact (C6_aggregate_spec
    [{ model := "e1",
       ranking := "FINAL RANKING:\n1. Response A\n2. Response B",
       parsed_ranking := [] }]
    [("Response A", "m1"), ("Response B", "m2")]).2.1 "m2"
    (by with_unfolding_all decide)

end Council
